import Mathlib

/-!
Verification of the agentic hiring orchestrator's synthesis pipeline,
state validation, model invariants and retry policy.

The definitions below are a shallow embedding of the Python sources under
`backend/src` (`nodes/synthesis.py`, `state.py`, `graph.py`,
`models/rubric.py`, `models/packet.py`, `models/interview.py`,
`models/memory.py`, `models/review.py`).  Python floats are modelled as
rationals (`ℚ`), integer scores as `Int`, Python `dict`s as insertion-ordered
association lists, Python sets as first-occurrence-deduplicated lists, and
exception-raising constructors / validators as `Except String`-returning
functions.  Fields of the Pydantic models that no embedded function reads
(timestamps, prose fields such as `overall_assessment`, `evidence` lists,
`follow_up_prompts`, …) are omitted from the corresponding structures; every
field an embedded function touches is present.
-/

namespace HiringOrch

/-! ## Python string primitives

Structural re-implementations of the Python string operations used by the
code (`str.lower`, `str.strip`, the `in` substring test, `sorted`, and
`sorted(key=..., reverse=True)` which is a stable sort). -/

/-- Lower-case a character the way CPython does for ASCII letters. -/
def pyLowerChar (c : Char) : Char :=
  if 65 ≤ c.toNat ∧ c.toNat ≤ 90 then Char.ofNat (c.toNat + 32) else c

/-- Python `str.lower()` (ASCII fragment). -/
def pyLower (s : String) : String := ⟨s.data.map pyLowerChar⟩

/-- Whitespace recognised by Python `str.strip()` (common ASCII subset). -/
def isSpaceChar (c : Char) : Bool := c == ' ' || c == '\t' || c == '\n' || c == '\r'

/-- Python `str.strip()`: drop leading and trailing whitespace. -/
def pyStrip (s : String) : String :=
  ⟨((s.data.dropWhile isSpaceChar).reverse.dropWhile isSpaceChar).reverse⟩

/-- Does the second character list start with the first? -/
def charsStartWith : List Char → List Char → Bool
  | [], _ => true
  | _ :: _, [] => false
  | c :: cs, d :: ds => c == d && charsStartWith cs ds

/-- Does the needle occur somewhere inside the haystack? -/
def charsOccur (needle : List Char) : List Char → Bool
  | [] => needle.isEmpty
  | c :: rest => charsStartWith needle (c :: rest) || charsOccur needle rest

/-- Python `needle in hay` on strings (substring containment). -/
def pyInStr (needle hay : String) : Bool :=
  needle.isEmpty || charsOccur needle.data hay.data

/-- Lexicographic (code-point) comparison of character lists, as Python
compares strings. -/
def charsLt : List Char → List Char → Bool
  | [], [] => false
  | [], _ :: _ => true
  | _ :: _, [] => false
  | c :: cs, d :: ds => c.toNat < d.toNat || (c == d && charsLt cs ds)

/-- Boolean `s ≤ t` on strings (Python string comparison). -/
def strLeB (s t : String) : Bool := !(charsLt t.data s.data)

/-- Insert into a sorted list, before the first element it is `le` to.
Together with `stableSort` this models Python's stable `sorted`. -/
def insertSorted (le : α → α → Bool) (s : α) : List α → List α
  | [] => [s]
  | t :: ts => if le s t then s :: t :: ts else t :: insertSorted le s ts

/-- Stable insertion sort: the model of Python `sorted` (stability matters
for `sorted(..., key=..., reverse=True)` in the deduplicator). -/
def stableSort (le : α → α → Bool) (l : List α) : List α := l.foldr (insertSorted le) []

/-- Python `sorted` on a list of strings. -/
def sortStrings (l : List String) : List String := stableSort strLeB l

/-- Model of a Python `set(...)` materialised as a list: keep the first
occurrence of each element.  (CPython set iteration order is unspecified;
this picks a canonical deterministic order.) -/
def pySetList (l : List String) : List String :=
  l.foldl (fun acc s => if acc.contains s then acc else acc ++ [s]) []

/-- Python `dict[k] = v` on an insertion-ordered association list: an
existing key keeps its position and gets the new value, a new key is
appended at the end. -/
def dictSet (m : List (String × α)) (k : String) (v : α) : List (String × α) :=
  if m.any (fun p => p.1 == k) then m.map (fun p => if p.1 == k then (p.1, v) else p)
  else m ++ [(k, v)]

/-- Python `dict.get(k)` / `k in dict` lookup on an association list. -/
def dictGet? (m : List (String × α)) (k : String) : Option α :=
  (m.find? (fun p => p.1 == k)).map (·.2)

/-- Render a list of strings the way the validators interpolate a sorted
list into an f-string (modulo the `repr` quotes). -/
def bracketList (l : List String) : String := "[" ++ String.intercalate ", " l ++ "]"

/-! ## Rounding

Python's `round(x, 1)` rounds half to even. -/

/-- Python `round(q)`: nearest integer, ties to even. -/
def pyRound (q : ℚ) : ℤ :=
  let f := ⌊q⌋
  let r := q - f
  if r < 1/2 then f
  else if 1/2 < r then f + 1
  else if f % 2 = 0 then f else f + 1

/-- Python `round(q, 1)`: round to one decimal place. -/
def round1 (q : ℚ) : ℚ := (pyRound (10 * q) : ℚ) / 10

/-- Render a rational with one decimal digit, as the f-string `f"{q:.1f}"`
does for the non-negative averages that reach it. -/
def formatAvg1 (q : ℚ) : String :=
  let n := pyRound (10 * q)
  toString (n / 10) ++ "." ++ toString (n % 10)

/-! ## Domain model (`backend/src/models`)

Plain structures for the Pydantic models; the construction-time validators
are modelled separately as `Except`-returning smart constructors where a
claim is about them (`Rubric`, `DecisionPacket`, `InterviewPlan`). -/

/-- Model of `models/rubric.py` `RubricCategory` (fields read by the embedded code:
`name`, `weight`, `is_must_have`; `description` and `scoring_criteria` are
never read by the synthesis / validation functions). -/
structure RubricCategory where
  name : String
  weight : ℚ
  is_must_have : Bool
deriving Repr, DecidableEq

/-- Model of `models/rubric.py` `Rubric` (without the `generated_at` timestamp). -/
structure Rubric where
  role_title : String
  categories : List RubricCategory
deriving Repr, DecidableEq

/-- Model of `models/review.py` `CategoryScore` (fields read by the embedded code;
`evidence`, `gaps` and `confidence` are never read downstream). -/
structure CategoryScore where
  category_name : String
  score : Int
deriving Repr, DecidableEq

/-- Model of `models/review.py` `AgentReview` (fields read by the embedded code;
`overall_assessment`, `follow_up_questions` and `expected_rubric_categories`
are never read by synthesis or state validation). -/
structure AgentReview where
  agent_role : String
  category_scores : List CategoryScore
  top_strengths : List String
  top_risks : List String
deriving Repr, DecidableEq

/-- Model of `models/memory.py` `KeyObservation`. -/
structure KeyObservation where
  category : String
  observation : String
  evidence_location : String
  strength_or_risk : String
deriving Repr, DecidableEq

/-- Model of `models/memory.py` `CrossReference` (fields read by the embedded code;
`claim_location` and `supporting_evidence` are never read downstream). -/
structure CrossReference where
  claim : String
  contradictory_evidence : List String
  assessment : String
deriving Repr, DecidableEq

/-- Model of `models/memory.py` `WorkingMemory` (without `timeline_analysis` and
`created_at`, which no embedded function reads). -/
structure WorkingMemory where
  agent_role : String
  key_observations : List KeyObservation
  cross_references : List CrossReference
  missing_information : List String
  ambiguities : List String
deriving Repr, DecidableEq

/-- Model of `models/packet.py` `Disagreement` (the computed `score_delta` is
re-derived from `agent_scores` where needed). -/
structure Disagreement where
  category_name : String
  agent_scores : List (String × Int)
  reason : String
  resolution_approach : String
deriving Repr, DecidableEq

/-- Confidence levels of a `DecisionPacket`. -/
inductive Confidence where
  | high
  | medium
  | low
deriving Repr, DecidableEq

/-- The `recommendation` literal of a `DecisionPacket`. -/
inductive Recommendation where
  | hire
  | leanHire
  | leanNo
  | no
deriving Repr, DecidableEq

/-- Model of `models/packet.py` `DecisionPacket` (without `candidate_name`, which
synthesis never sets, and the `generated_at` timestamp). -/
structure DecisionPacket where
  role_title : String
  overall_fit_score : ℚ
  confidence : Confidence
  recommendation : Option Recommendation
  top_strengths : List String
  top_risks : List String
  must_have_gaps : List String
  disagreements : List Disagreement
deriving Repr, DecidableEq

/-- Model of `models/interview.py` `InterviewQuestion` (without `follow_up_prompts`,
which synthesis never sets). -/
structure InterviewQuestion where
  question : String
  category : String
  interviewer_role : String
  what_to_listen_for : List String
  red_flags : List String
deriving Repr, DecidableEq

/-- Model of `models/interview.py` `InterviewPlan`. -/
structure InterviewPlan where
  questions_by_interviewer : List (String × List InterviewQuestion)
  time_estimate_minutes : Option Int
  priority_areas : List String
deriving Repr, DecidableEq

/-- The four canonical agent roles (`VALID_AGENT_ROLES` in `state.py`,
`valid_roles` in the model validators). -/
def validRoles : List String := ["HR", "Tech", "Product", "Compliance"]

/-- The list `sorted(VALID_AGENT_ROLES)` as it appears in error messages. -/
def validRolesSorted : List String := ["Compliance", "HR", "Product", "Tech"]

/-! ## Synthesis node (`nodes/synthesis.py`) -/

/-- The inner loop of both `_calculate_weighted_average_score` and the score
collection in `_detect_disagreements`: find the first `CategoryScore` whose
`category_name` matches and return its score (`break` after the first hit). -/
def findCategoryScore (review : AgentReview) (category_name : String) : Option Int :=
  (review.category_scores.find? (fun s => s.category_name == category_name)).map (·.score)

/-- The `scores` list built by `_calculate_weighted_average_score`: one entry
per review that contains a score item for the category. -/
def scoresForCategory (category_name : String) (panel_reviews : List AgentReview) : List Int :=
  panel_reviews.foldl (fun scores review =>
    match findCategoryScore review category_name with
    | some s => scores ++ [s]
    | none => scores) []

/-- Translation of `_calculate_weighted_average_score`: the plain mean of the scores of the
reviewers that scored the category, `0.0` when none did. -/
def calculate_weighted_average_score (category_name : String)
    (panel_reviews : List AgentReview) : ℚ :=
  let scores := scoresForCategory category_name panel_reviews
  if scores.isEmpty then 0
  else ((scores.map (fun s => (s : ℚ))).sum) / scores.length

/-- The `agent_scores` dict built per category by `_detect_disagreements`. -/
def collectAgentScores (category_name : String) (panel_reviews : List AgentReview) :
    List (String × Int) :=
  panel_reviews.foldl (fun m review =>
    match findCategoryScore review category_name with
    | some s => dictSet m review.agent_role s
    | none => m) []

/-- Python `max` over a non-empty list of ints (`0` on `[]`, never reached). -/
def listMax : List Int → Int
  | [] => 0
  | x :: xs => xs.foldl max x

/-- Python `min` over a non-empty list of ints (`0` on `[]`, never reached). -/
def listMin : List Int → Int
  | [] => 0
  | x :: xs => xs.foldl min x

/-- The `reason` string `_detect_disagreements` builds (the integer `delta`
prints as `d.0` under `f"{delta:.1f}"`). -/
def disagreementReason (high_agents low_agents : List String)
    (max_score min_score delta : Int) : String :=
  "Score conflict detected: " ++ String.intercalate ", " high_agents ++ " scored " ++
    toString max_score ++ ", while " ++ String.intercalate ", " low_agents ++ " scored " ++
    toString min_score ++ " (delta: " ++ toString delta ++ ".0). " ++
    "This suggests different priorities or interpretation of evidence."

/-- Resolution text for `delta >= 2.0`. -/
def criticalResolution : String :=
  "Critical disagreement - requires interview validation and reference checks"

/-- Resolution text for `1.0 <= delta < 2.0`. -/
def moderateResolution : String :=
  "Moderate disagreement - recommend targeted interview questions"

/-- Translation of `_detect_disagreements`: for each rubric category collect every agent's
score, skip categories scored by fewer than 2 agents, and emit a
`Disagreement` whenever `max - min >= 1`. -/
def detect_disagreements (panel_reviews : List AgentReview) (rubric : Rubric) :
    List Disagreement :=
  rubric.categories.foldl (fun disagreements category =>
    let agent_scores := collectAgentScores category.name panel_reviews
    if agent_scores.length < 2 then disagreements
    else
      let scores := agent_scores.map (·.2)
      let max_score := listMax scores
      let min_score := listMin scores
      let delta := max_score - min_score
      if 1 ≤ delta then
        let high_agents := (agent_scores.filter (fun p => p.2 == max_score)).map (·.1)
        let low_agents := (agent_scores.filter (fun p => p.2 == min_score)).map (·.1)
        disagreements ++ [{ category_name := category.name
                            agent_scores := agent_scores
                            reason := disagreementReason high_agents low_agents
                              max_score min_score delta
                            resolution_approach :=
                              if 2 ≤ delta then criticalResolution else moderateResolution }]
      else disagreements) []

/-- Rendering of one observation inside `_enrich_disagreements_with_memory`
(observation text, evidence location, strength/risk tag). -/
def renderObservation (obs : KeyObservation) : String :=
  obs.observation ++
    (if obs.evidence_location ≠ "" then " (from " ++ obs.evidence_location ++ ")" else "") ++
    (if obs.strength_or_risk ≠ "" then " [" ++ obs.strength_or_risk ++ "]" else "")

/-- The text `_enrich_disagreements_with_memory` appends to the reason for
one `(role, score)` entry of a disagreement: nothing when the role has no
working memory (the loop `continue`s), the explicit no-observations note when
it has memory but no observation whose category contains the disagreement's
category name case-insensitively, and otherwise the first 2 such
observations rendered. -/
def agentContext (agent_working_memory : List (String × WorkingMemory))
    (category_name : String) (p : String × Int) : String :=
  match dictGet? agent_working_memory p.1 with
  | none => ""
  | some memory =>
      let relevant := memory.key_observations.filter
        (fun obs => pyInStr (pyLower category_name) (pyLower obs.category))
      if relevant.isEmpty then
        "\n- " ++ p.1 ++ " (score: " ++ toString p.2 ++
          "): No specific observations recorded for this category"
      else
        "\n- " ++ p.1 ++ " (score: " ++ toString p.2 ++ ") noted:" ++
          String.join ((relevant.take 2).map (fun obs => "\n  • " ++ renderObservation obs))

/-- Translation of `_enrich_disagreements_with_memory`: returns the input unchanged when the
working-memory map is empty, otherwise rebuilds each disagreement with an
extended `reason`. -/
def enrich_disagreements_with_memory (disagreements : List Disagreement)
    (agent_working_memory : List (String × WorkingMemory)) : List Disagreement :=
  if agent_working_memory.isEmpty then disagreements
  else
    disagreements.foldl (fun acc d =>
      let enriched_reason := d.agent_scores.foldl
        (fun r p => r ++ agentContext agent_working_memory d.category_name p)
        (d.reason ++ "\n\nWorking Memory Context:")
      acc ++ [{ category_name := d.category_name
                agent_scores := d.agent_scores
                reason := enriched_reason
                resolution_approach := d.resolution_approach }]) []

/-- Translation of `_deduplicate_strengths_risks`: count case-insensitively/whitespace
normalised duplicates (keeping the first original text per key, in first
occurrence order), stable-sort by count descending, keep the top 5. -/
def deduplicate_strengths_risks (items : List String) : List String :=
  let item_counts := items.foldl (fun acc item =>
    let key := pyStrip (pyLower item)
    if acc.any (fun e => e.1 == key) then
      acc.map (fun e => if e.1 == key then (e.1, e.2.1, e.2.2 + 1) else e)
    else acc ++ [(key, item, 1)]) ([] : List (String × String × Nat))
  let sorted_items := stableSort (fun a b => b.2.2 ≤ a.2.2) item_counts
  (sorted_items.take 5).map (fun e => e.2.1)

/-- The pooled `all_strengths` list of `_create_decision_packet`. -/
def allStrengths (panel_reviews : List AgentReview) : List String :=
  panel_reviews.foldl (fun acc r => acc ++ r.top_strengths) []

/-- The pooled `all_risks` list of `_create_decision_packet`. -/
def allRisks (panel_reviews : List AgentReview) : List String :=
  panel_reviews.foldl (fun acc r => acc ++ r.top_risks) []

/-- The weighted overall fit score of `_create_decision_packet`: accumulate
`weight * category average` and the total weight over all rubric categories,
then divide and round to 1 decimal when the total weight is positive. -/
def overallFitScore (rubric : Rubric) (panel_reviews : List AgentReview) : ℚ :=
  let acc := rubric.categories.foldl (fun (p : ℚ × ℚ) category =>
    (p.1 + category.weight * calculate_weighted_average_score category.name panel_reviews,
     p.2 + category.weight)) (0, 0)
  if 0 < acc.2 then round1 (acc.1 / acc.2) else acc.1

/-- The gap string `_create_decision_packet` emits for a must-have category
scoring below threshold (the f-string quotes around the name are kept as
plain text). -/
def mustHaveGapText (name : String) (avg : ℚ) : String :=
  "Must-have category " ++ name ++ " scored below threshold (avg: " ++
    formatAvg1 avg ++ "/5.0)"

/-- The `must_have_gaps` list of `_create_decision_packet`: one entry per
`is_must_have` category whose per-category average is below 3.0. -/
def mustHaveGaps (rubric : Rubric) (panel_reviews : List AgentReview) : List String :=
  rubric.categories.foldl (fun gaps category =>
    if category.is_must_have then
      let avg := calculate_weighted_average_score category.name panel_reviews
      if avg < 3 then gaps ++ [mustHaveGapText category.name avg] else gaps
    else gaps) []

/-- The recommendation policy of `_create_decision_packet` (first match in
this fixed order wins). -/
def decideRecommendation (overall_fit_score : ℚ) (must_have_gaps : List String) :
    Option Recommendation :=
  if 4 ≤ overall_fit_score ∧ must_have_gaps = [] then some .hire
  else if 7/2 ≤ overall_fit_score ∧ must_have_gaps = [] then some .leanHire
  else if overall_fit_score < 5/2 ∨ must_have_gaps ≠ [] then
    (if must_have_gaps ≠ [] then some .no else some .leanNo)
  else none

/-- Pydantic construction of a `DecisionPacket` (`models/packet.py`): the
field constraints (`role_title` non-empty, `overall_fit_score` in `[0, 5]`,
3–5 `top_strengths`, 3–5 `top_risks`) followed by the
`validate_recommendation_alignment` model validator, which only fires when a
recommendation is present. -/
def mkDecisionPacket (role_title : String) (overall_fit_score : ℚ)
    (confidence : Confidence) (recommendation : Option Recommendation)
    (top_strengths top_risks must_have_gaps : List String)
    (disagreements : List Disagreement) : Except String DecisionPacket :=
  if role_title.length < 1 then
    .error "role_title: string should have at least 1 character"
  else if overall_fit_score < 0 ∨ 5 < overall_fit_score then
    .error "overall_fit_score must be between 0.0 and 5.0"
  else if top_strengths.length < 3 ∨ 5 < top_strengths.length then
    .error "top_strengths: list should have between 3 and 5 items"
  else if top_risks.length < 3 ∨ 5 < top_risks.length then
    .error "top_risks: list should have between 3 and 5 items"
  else if must_have_gaps ≠ [] ∧ recommendation = some .hire then
    .error "Recommendation is Hire but must-have gaps exist"
  else if 4 ≤ overall_fit_score ∧
      (recommendation = some .leanNo ∨ recommendation = some .no) then
    .error "overall_fit_score is strong but recommendation is negative"
  else if overall_fit_score < 2 ∧
      (recommendation = some .hire ∨ recommendation = some .leanHire) then
    .error "overall_fit_score is weak but recommendation is positive"
  else
    .ok { role_title := role_title
          overall_fit_score := overall_fit_score
          confidence := confidence
          recommendation := recommendation
          top_strengths := top_strengths
          top_risks := top_risks
          must_have_gaps := must_have_gaps
          disagreements := disagreements }

/-- Translation of `_create_decision_packet`: weighted overall score, confidence from the
number of disagreements, deduplicated pooled strengths and risks, must-have
gaps, the recommendation policy, and finally the validated `DecisionPacket`
construction (`agent_working_memory` is accepted but never read, as in the
source). -/
def create_decision_packet (rubric : Rubric) (panel_reviews : List AgentReview)
    (disagreements : List Disagreement)
    (agent_working_memory : List (String × WorkingMemory)) :
    Except String DecisionPacket :=
  let overall_fit_score := overallFitScore rubric panel_reviews
  let num_disagreements := disagreements.length
  let confidence : Confidence :=
    if num_disagreements = 0 then .high
    else if num_disagreements ≤ 2 then .medium
    else .low
  let top_strengths := deduplicate_strengths_risks (allStrengths panel_reviews)
  let top_risks := deduplicate_strengths_risks (allRisks panel_reviews)
  let must_have_gaps := mustHaveGaps rubric panel_reviews
  let recommendation := decideRecommendation overall_fit_score must_have_gaps
  mkDecisionPacket rubric.role_title overall_fit_score confidence recommendation
    top_strengths top_risks must_have_gaps disagreements

/-- Pydantic construction of a `Rubric` (`models/rubric.py`): the field
constraints (`role_title` non-empty, at least 1 category) followed by the
`validate_weights_sum` (tolerance `0.01`) and `validate_must_have_exists`
model validators. -/
def mkRubric (role_title : String) (categories : List RubricCategory) :
    Except String Rubric :=
  if role_title.length < 1 then
    .error "role_title: string should have at least 1 character"
  else if categories.length < 1 then
    .error "categories: list should have at least 1 item"
  else if ¬ |categories.foldl (fun total c => total + c.weight) 0 - 1| ≤ 1/100 then
    .error "Category weights must sum to 1.0 (plus or minus 0.01)"
  else if (categories.filter (fun c => c.is_must_have)).isEmpty then
    .error "At least one category must be marked as is_must_have"
  else
    .ok { role_title := role_title, categories := categories }

/-! ## Interview plan generation (`_create_interview_plan`) -/

/-- The must-have-gap question of `_create_interview_plan` (step 1). -/
def mustHaveQuestion (category_name role : String) : InterviewQuestion :=
  { question := "This role requires strong " ++ category_name ++
      ". Can you walk me through specific examples where you have demonstrated this?"
    category := category_name
    interviewer_role := role
    what_to_listen_for :=
      ["Concrete examples", "Measurable outcomes", "Clear ownership", "Technical depth"]
    red_flags :=
      ["Vague responses", "Lack of specifics",
       "Team achievements without personal contribution"] }

/-- The disagreement question of `_create_interview_plan` (step 2). -/
def disagreementQuestion (category_name role : String) : InterviewQuestion :=
  { question := "Tell me about your experience with " ++ category_name ++
      ". What is your approach and what results have you achieved?"
    category := category_name
    interviewer_role := role
    what_to_listen_for :=
      ["Detailed examples", "Specific metrics", "Clear methodology", "Lessons learned"]
    red_flags :=
      ["Inconsistent with resume", "Surface-level understanding",
       "Unable to discuss trade-offs"] }

/-- The ambiguity clarification question of `_create_interview_plan` (step 3). -/
def ambiguityQuestion (ambiguity role : String) : InterviewQuestion :=
  { question := "Can you clarify: " ++ ambiguity ++ "?"
    category := "Clarification"
    interviewer_role := role
    what_to_listen_for :=
      ["Specific examples", "Clear ownership", "Concrete details", "Timeline"]
    red_flags := ["Vague answers", "Deflection", "Inconsistency with resume"] }

/-- The missing-information question of `_create_interview_plan` (step 3). -/
def missingInfoQuestion (missing_info role : String) : InterviewQuestion :=
  { question := "I noticed your resume does not mention " ++ missing_info ++
      ". Can you speak to your experience in this area?"
    category := "Gap Exploration"
    interviewer_role := role
    what_to_listen_for :=
      ["Honest acknowledgment", "Related experience", "Learning approach",
       "Transferable skills"]
    red_flags := ["Defensive response", "Exaggeration", "Avoidance", "Overconfidence"] }

/-- The claim-verification question of `_create_interview_plan` (step 3). -/
def claimVerificationQuestion (claim role : String) : InterviewQuestion :=
  { question := "Your resume states " ++ claim ++
      ". Can you walk me through specific examples?"
    category := "Claim Verification"
    interviewer_role := role
    what_to_listen_for :=
      ["Detailed timeline", "Specific metrics", "Clear outcomes", "Consistency"]
    red_flags :=
      ["Lack of specifics", "Timeline mismatch", "Backtracking", "Contradictory details"] }

/-- The `if len(questions_by_interviewer[role]) < 7: append(question)` cap
used by every question source (the role is known to be a key). -/
def appendQuestionCapped (qbi : List (String × List InterviewQuestion))
    (role : String) (q : InterviewQuestion) : List (String × List InterviewQuestion) :=
  qbi.map (fun p => if p.1 == role then (p.1, if p.2.length < 7 then p.2 ++ [q] else p.2) else p)

/-- Step 1 of `_create_interview_plan`: for every must-have category
averaging below 3.0, record it as a priority area and give each reviewer
whose first matching score item is below 3 a targeted question. -/
def planMustHaveStep (rubric : Rubric) (panel_reviews : List AgentReview)
    (st : List (String × List InterviewQuestion) × List String) :
    List (String × List InterviewQuestion) × List String :=
  rubric.categories.foldl (fun st category =>
    if category.is_must_have ∧
        calculate_weighted_average_score category.name panel_reviews < 3 then
      let priority_areas := st.2 ++ [category.name]
      let qbi := panel_reviews.foldl (fun qbi review =>
        match review.category_scores.find?
            (fun s => s.category_name == category.name && s.score < 3) with
        | some _ =>
            appendQuestionCapped qbi review.agent_role
              (mustHaveQuestion category.name review.agent_role)
        | none => qbi) st.1
      (qbi, priority_areas)
    else st) st

/-- Step 2 of `_create_interview_plan`: every disagreement becomes a priority
area and the first role at the lowest score is assigned a probing question.
Python raises `ValueError` on `min([])` and `KeyError` when the lowest
scorer is not a key of `questions_by_interviewer`; both surface as errors. -/
def planDisagreementStep :
    List Disagreement → List (String × List InterviewQuestion) × List String →
    Except String (List (String × List InterviewQuestion) × List String)
  | [], st => .ok st
  | d :: rest, st =>
      let priority_areas := st.2 ++ [d.category_name]
      if d.agent_scores.isEmpty then
        .error "ValueError: min() arg is an empty sequence"
      else
        let lowest_score := listMin (d.agent_scores.map (·.2))
        match (d.agent_scores.filter (fun p => p.2 == lowest_score)).head? with
        | none => .error "IndexError: list index out of range"
        | some p =>
            if st.1.any (fun e => e.1 == p.1) then
              planDisagreementStep rest
                (appendQuestionCapped st.1 p.1 (disagreementQuestion d.category_name p.1),
                 priority_areas)
            else .error ("KeyError: " ++ p.1)

/-- Step 3 of `_create_interview_plan`: per working-memory entry whose role
is a key, up to 2 ambiguity questions, up to 2 missing-information
questions, and up to 1 claim-verification question from contradictory
cross-references. -/
def planMemoryStep (agent_working_memory : List (String × WorkingMemory))
    (qbi0 : List (String × List InterviewQuestion)) :
    List (String × List InterviewQuestion) :=
  agent_working_memory.foldl (fun qbi p =>
    if !(qbi.any (fun e => e.1 == p.1)) then qbi
    else
      let qbi := (p.2.ambiguities.take 2).foldl
        (fun qbi amb => appendQuestionCapped qbi p.1 (ambiguityQuestion amb p.1)) qbi
      let qbi := (p.2.missing_information.take 2).foldl
        (fun qbi mi => appendQuestionCapped qbi p.1 (missingInfoQuestion mi p.1)) qbi
      let contradictory_refs := p.2.cross_references.filter
        (fun ref => ref.assessment == "contradictory" || !ref.contradictory_evidence.isEmpty)
      (contradictory_refs.take 1).foldl
        (fun qbi ref => appendQuestionCapped qbi p.1 (claimVerificationQuestion ref.claim p.1))
        qbi) qbi0

/-- Pydantic construction of an `InterviewPlan` (`models/interview.py`): the
field constraints (`time_estimate_minutes > 0` when present, at least 1
priority area) followed by the `validate_interviewer_roles` model validator
(valid keys, at least one non-empty question list, question roles matching
their key) and `validate_priority_areas_not_empty`. -/
def mkInterviewPlan (questions_by_interviewer : List (String × List InterviewQuestion))
    (time_estimate_minutes : Option Int) (priority_areas : List String) :
    Except String InterviewPlan :=
  if (time_estimate_minutes.map (fun t => decide (t ≤ 0))).getD false then
    .error "time_estimate_minutes: input should be greater than 0"
  else if priority_areas.length < 1 then
    .error "priority_areas: list should have at least 1 item"
  else if questions_by_interviewer.any (fun p => !(validRoles.contains p.1)) then
    .error "Invalid interviewer roles"
  else if questions_by_interviewer.all (fun p => p.2.isEmpty) then
    .error "Interview plan must include at least one question for at least one interviewer"
  else if questions_by_interviewer.any
      (fun p => p.2.any (fun q => q.interviewer_role != p.1)) then
    .error "Question interviewer_role mismatch"
  else if questions_by_interviewer.any
      (fun p => p.2.any (fun q => !(validRoles.contains q.interviewer_role))) then
    .error "Question has invalid interviewer_role"
  else
    .ok { questions_by_interviewer := questions_by_interviewer
          time_estimate_minutes := time_estimate_minutes
          priority_areas := priority_areas }

/-- Translation of `_create_interview_plan`: initialise one (empty) question list per
distinct reviewer role, run the three question sources in order, estimate 15
minutes per key of `questions_by_interviewer`, deduplicate the priority
areas with `list(set(...))`, and construct the validated `InterviewPlan`. -/
def create_interview_plan (rubric : Rubric) (panel_reviews : List AgentReview)
    (disagreements : List Disagreement)
    (agent_working_memory : List (String × WorkingMemory)) :
    Except String InterviewPlan :=
  let qbi0 : List (String × List InterviewQuestion) :=
    panel_reviews.foldl (fun m review =>
      if m.any (fun e => e.1 == review.agent_role) then m
      else m ++ [(review.agent_role, [])]) []
  let st1 := planMustHaveStep rubric panel_reviews (qbi0, [])
  match planDisagreementStep disagreements st1 with
  | .error e => .error e
  | .ok st2 =>
      let questions_by_interviewer := planMemoryStep agent_working_memory st2.1
      let time_estimate_minutes : Int := questions_by_interviewer.length * 15
      mkInterviewPlan questions_by_interviewer (some time_estimate_minutes)
        (pySetList st2.2)

/-! ## State validation (`state.py` `validate_panel_memory_consistency`)

The function only reads `review.agent_role` from each panel review and the
keys / `agent_role` fields of the working-memory map, with both fields
present (the `None` early return is the caller's concern).  Python sets are
modelled by `pySetList` and `sorted(...)` by `sortStrings`. -/

/-- The mismatch message of check (c): it interpolates the sorted missing
and extra role lists (joined with `"; "` exactly when both parts are
present) and the sorted panel/memory role sets. -/
def panelMismatchMessage (missing_from_memory extra_in_memory
    panel_agent_roles memory_agent_roles : List String) : String :=
  "Panel reviews and agent working memory have mismatched agent roles. " ++
    String.intercalate "; "
      ((if missing_from_memory.isEmpty then [] else
          ["Missing from agent_working_memory: " ++ bracketList missing_from_memory]) ++
       (if extra_in_memory.isEmpty then [] else
          ["Extra in agent_working_memory (no corresponding panel review): " ++
            bracketList extra_in_memory])) ++
    ". Panel review agents: " ++ bracketList panel_agent_roles ++
    ", Working memory agents: " ++ bracketList memory_agent_roles

/-- Translation of `validate_panel_memory_consistency`, checks in source order:
(a) panel roles are canonical, (b) memory keys are canonical, (c) the two
role sets coincide, (d) each memory entry's `agent_role` equals its key.
Raising `StateValidationError` is modelled as returning `Except.error`. -/
def validate_panel_memory_consistency (panel_reviews : List AgentReview)
    (agent_working_memory : List (String × WorkingMemory)) : Except String Unit :=
  let panel_agent_roles := pySetList (panel_reviews.map (·.agent_role))
  let memory_agent_roles := pySetList (agent_working_memory.map (·.1))
  let invalid_panel_roles :=
    sortStrings (panel_agent_roles.filter (fun r => !(validRoles.contains r)))
  if !invalid_panel_roles.isEmpty then
    .error ("Invalid agent roles in panel_reviews: " ++ bracketList invalid_panel_roles ++
      ". Expected one of: " ++ bracketList validRolesSorted)
  else
    let invalid_memory_roles :=
      sortStrings (memory_agent_roles.filter (fun r => !(validRoles.contains r)))
    if !invalid_memory_roles.isEmpty then
      .error ("Invalid agent roles in agent_working_memory: " ++
        bracketList invalid_memory_roles ++ ". Expected one of: " ++
        bracketList validRolesSorted)
    else
      let missing_from_memory :=
        sortStrings (panel_agent_roles.filter (fun r => !(memory_agent_roles.contains r)))
      let extra_in_memory :=
        sortStrings (memory_agent_roles.filter (fun r => !(panel_agent_roles.contains r)))
      if !missing_from_memory.isEmpty || !extra_in_memory.isEmpty then
        .error (panelMismatchMessage missing_from_memory extra_in_memory
          (sortStrings panel_agent_roles) (sortStrings memory_agent_roles))
      else
        match agent_working_memory.find? (fun p => p.2.agent_role != p.1) with
        | some p =>
            .error ("WorkingMemory agent_role mismatch: dictionary key is " ++ p.1 ++
              " but WorkingMemory.agent_role is " ++ p.2.agent_role ++
              ". These must be identical.")
        | none => .ok ()

/-! ## Retry policy (`graph.py` `retry_on_failure`)

The wrapped node call is modelled as a function from the attempt number
(1-based, as in the Python `for attempt in range(1, max_attempts + 1)`
loop) to an `Except`: `Except.error` models the call raising.  `time.sleep`
is modelled by recording the slept delays in order. -/

/-- The retry loop body, recursing on the number of attempts still allowed
(`remaining` counts the current attempt): return the first success, sleep
`backoff_base * 2 ^ (attempt - 1)` between attempts, and re-raise the last
exception once attempts are exhausted.  The `remaining = 0` base case is
never reached from `retry_on_failure` with a positive attempt budget. -/
def retryAux (f : Nat → Except E A) (backoff_base : ℚ) :
    Nat → Nat → Except E A × List ℚ
  | attempt, 0 => (f attempt, [])
  | attempt, remaining + 1 =>
      match f attempt with
      | .ok a => (.ok a, [])
      | .error e =>
          if remaining = 0 then (.error e, [])
          else
            let rest := retryAux f backoff_base (attempt + 1) remaining
            (rest.1, (backoff_base * 2 ^ (attempt - 1)) :: rest.2)

/-- The decorator `retry_on_failure(max_attempts, backoff_base)` applied to a node whose
attempt outcomes are given by `f`: the overall result together with the
sequence of backoff delays slept. -/
def retry_on_failure (max_attempts : Nat) (backoff_base : ℚ)
    (f : Nat → Except E A) : Except E A × List ℚ :=
  retryAux f backoff_base 1 max_attempts

/-! ## Spec-side refinement definition for the overall score

The specification describes the denominator of the weighted aggregation as
"the sum of weights actually represented", i.e. the weights of the
categories that at least one reviewer scored. -/

/-- Modelled from the spec (§4.4.3): weighted category averages summed and
divided by the sum of the weights of the categories that at least one
reviewer scored, rounded to 1 decimal place.  Kept separate from
`overallFitScore` (the code translation) to compare the two. -/
def specOverallFitScore (rubric : Rubric) (panel_reviews : List AgentReview) : ℚ :=
  let represented := rubric.categories.filter
    (fun c => !(scoresForCategory c.name panel_reviews).isEmpty)
  round1
    ((rubric.categories.map
        (fun c => c.weight * calculate_weighted_average_score c.name panel_reviews)).sum /
      (represented.map (·.weight)).sum)

/-! ## Concrete example inputs used by witnesses and counterexamples -/

/-- One-category must-have rubric with weight 1. -/
def exRubricA : Rubric := { role_title := "Role", categories := [⟨"A", 1, true⟩] }

/-- HR review scoring category `A` at 4, with three distinct strengths and
risks. -/
def exReviewHR4 : AgentReview :=
  { agent_role := "HR", category_scores := [⟨"A", 4⟩],
    top_strengths := ["s1", "s2", "s3"], top_risks := ["r1", "r2", "r3"] }

/-- Tech review scoring category `A` at 5. -/
def exReviewTech5 : AgentReview :=
  { agent_role := "Tech", category_scores := [⟨"A", 5⟩],
    top_strengths := ["s4", "s5", "s6"], top_risks := ["r4", "r5", "r6"] }

/-- The decision packet produced on `exRubricA` with the single review
`exReviewHR4`. -/
def exPacketHire : DecisionPacket :=
  { role_title := "Role", overall_fit_score := 4, confidence := .high,
    recommendation := some .hire, top_strengths := ["s1", "s2", "s3"],
    top_risks := ["r1", "r2", "r3"], must_have_gaps := [], disagreements := [] }

/-- Two-category rubric with weights 1/2 each, where only category `A` will
be scored by the panel. -/
def exRubricHalf : Rubric :=
  { role_title := "Role", categories := [⟨"A", 1/2, true⟩, ⟨"B", 1/2, false⟩] }

/-- Rubric for Scenario A with the single category `Domain Knowledge`. -/
def exRubricDK : Rubric := { role_title := "Role", categories := [⟨"Domain Knowledge", 1, true⟩] }

/-- HR review for Scenario A. -/
def exReviewDK_HR : AgentReview :=
  { agent_role := "HR", category_scores := [⟨"Domain Knowledge", 2⟩],
    top_strengths := ["s1", "s2", "s3"], top_risks := ["r1", "r2", "r3"] }

/-- Tech review for Scenario A. -/
def exReviewDK_Tech : AgentReview :=
  { agent_role := "Tech", category_scores := [⟨"Domain Knowledge", 4⟩],
    top_strengths := ["s4", "s5", "s6"], top_risks := ["r4", "r5", "r6"] }

/-- A working memory for the HR role with no observations. -/
def exMemoryHR : WorkingMemory :=
  { agent_role := "HR", key_observations := [], cross_references := [],
    missing_information := [], ambiguities := [] }

/-- A disagreement between HR (2) and Tech (4) used by the enrichment
counterexample. -/
def exDisagreementDK : Disagreement :=
  { category_name := "Domain Knowledge", agent_scores := [("HR", 2), ("Tech", 4)],
    reason := "Score conflict detected.",
    resolution_approach := criticalResolution }

/-- A working-memory map containing only the Compliance role, with three
observations none of which mention `Domain Knowledge`. -/
def exMemoryMapCompliance : List (String × WorkingMemory) :=
  [("Compliance",
    { agent_role := "Compliance"
      key_observations :=
        [⟨"Security", "obs one", "loc1", "risk"⟩,
         ⟨"PII Handling", "obs two", "loc2", "neutral"⟩,
         ⟨"Bias", "obs three", "loc3", "risk"⟩]
      cross_references := []
      missing_information := []
      ambiguities := [] })]

/-- A review whose strengths collapse to two distinct entries under the
case-insensitive, whitespace-trimmed deduplication. -/
def exReviewDupStrengths : AgentReview :=
  { agent_role := "HR", category_scores := [⟨"A", 4⟩],
    top_strengths := ["Strong Python", "strong python", "Communication"],
    top_risks := ["r1", "r2", "r3"] }

/-- Attempt outcomes for the retry witness: the first two attempts raise,
the third succeeds with 42. -/
def exRetryOutcomes : Nat → Except String Nat :=
  fun n => if n < 3 then .error ("fail " ++ toString n) else .ok 42

/-! ## General-purpose lemmas -/

/-- A fold whose step appends a step-independent chunk is `flatMap`. -/
theorem foldl_append_flatMap {α β : Type} (s : List β → α → List β) (h : α → List β)
    (hs : ∀ acc x, s acc x = acc ++ h x) :
    ∀ (l : List α) (init : List β), l.foldl s init = init ++ l.flatMap h := by
  intro l
  induction l with
  | nil => intro init; simp
  | cons x xs ih =>
      intro init
      simp only [List.foldl_cons, List.flatMap_cons, hs, ih, List.append_assoc]

/-- The second component of a pair-state fold whose step appends a
state-independent chunk to it. -/
theorem foldl_snd_flatMap {α β γ : Type} (s : γ × List β → α → γ × List β) (h : α → List β)
    (hs : ∀ st x, (s st x).2 = st.2 ++ h x) :
    ∀ (l : List α) (st : γ × List β), (l.foldl s st).2 = st.2 ++ l.flatMap h := by
  intro l
  induction l with
  | nil => intro st; simp
  | cons x xs ih =>
      intro st
      simp only [List.foldl_cons, List.flatMap_cons, ih, hs, List.append_assoc]

/-- Folds preserve invariants of the state. -/
theorem foldl_invariant {α γ : Type} (P : γ → Prop) (s : γ → α → γ)
    (hs : ∀ st x, P st → P (s st x)) :
    ∀ (l : List α) (st : γ), P st → P (l.foldl s st) := by
  intro l
  induction l with
  | nil => intro st hst; simpa using hst
  | cons x xs ih => intro st hst; exact ih (s st x) (hs st x hst)

/-- The function `String.join` distributes over `cons`. -/
theorem strJoin_cons (s : String) (l : List String) :
    String.join (s :: l) = s ++ String.join l := by
  apply String.ext
  simp [String.join_eq, String.data_append]

/-- A fold that appends rendered chunks to a string accumulator is the
accumulator followed by the joined chunks. -/
theorem foldl_string_join {α : Type} (f : α → String) :
    ∀ (l : List α) (init : String),
      l.foldl (fun r x => r ++ f x) init = init ++ String.join (l.map f) := by
  intro l
  induction l with
  | nil => intro init; simp [String.join]
  | cons x xs ih =>
      intro init
      simp only [List.foldl_cons, List.map_cons, strJoin_cons, ih, String.append_assoc]

/-- A `flatMap` over conditional singletons is `filter` followed by `map`. -/
theorem flatMap_if_singleton {α β : Type} (c : α → Bool) (g : α → β) :
    ∀ l : List α, (l.flatMap fun x => if c x then [g x] else []) = (l.filter c).map g := by
  intro l
  induction l with
  | nil => simp
  | cons x xs ih =>
      by_cases hx : c x <;> simp [List.flatMap_cons, List.filter_cons, hx, ih]

/-- A pair fold accumulating two sums componentwise. -/
theorem foldl_add_pair {α : Type} (f g : α → ℚ) :
    ∀ (l : List α) (a b : ℚ),
      l.foldl (fun p x => (p.1 + f x, p.2 + g x)) (a, b) =
        (a + (l.map f).sum, b + (l.map g).sum) := by
  intro l
  induction l with
  | nil => intro a b; simp
  | cons x xs ih => intro a b; simp [List.foldl_cons, ih]; ring_nf; simp [add_assoc]

/-- In a list of non-negative rationals summing to zero every element is
zero. -/
theorem sum_nonneg_all_zero :
    ∀ l : List ℚ, (∀ x ∈ l, 0 ≤ x) → l.sum = 0 → ∀ x ∈ l, x = 0 := by
  intro l
  induction l with
  | nil => intro _ _ x hx; cases hx
  | cons y ys ih =>
      intro hpos hsum x hx
      have hy : 0 ≤ y := hpos y (List.mem_cons_self y ys)
      have hys : 0 ≤ ys.sum := List.sum_nonneg (fun z hz => hpos z (List.mem_cons_of_mem y hz))
      have hsum' : y + ys.sum = 0 := by simpa using hsum
      have hy0 : y = 0 := by linarith
      have hys0 : ys.sum = 0 := by linarith
      rcases List.mem_cons.mp hx with rfl | hx'
      · exact hy0
      · exact ih (fun z hz => hpos z (List.mem_cons_of_mem y hz)) hys0 x hx'

/-! ## Association-list (Python dict) lemmas -/

/-- The value update of `dictSet` never changes keys, so a `find?` for any
key finds the updated image of whatever it found before. -/
theorem find?_mapUpdate {α : Type} (k k' : String) (v : α) (m : List (String × α)) :
    (m.map (fun p => if p.1 == k then (p.1, v) else p)).find? (fun p => p.1 == k') =
      (m.find? (fun p => p.1 == k')).map (fun p => if p.1 == k then (p.1, v) else p) := by
  rw [List.find?_map]
  have hcomp : ((fun p : String × α => p.1 == k') ∘ fun p => if p.1 == k then (p.1, v) else p) =
      (fun p : String × α => p.1 == k') := by
    funext p
    by_cases h : p.1 = k <;> simp [h]
  rw [hcomp]

/-- Looking up the key just assigned returns the assigned value. -/
theorem dictGet?_dictSet_self {α : Type} (m : List (String × α)) (k : String) (v : α) :
    dictGet? (dictSet m k v) k = some v := by
  unfold dictSet dictGet?
  by_cases hmem : m.any (fun p => p.1 == k)
  · rw [if_pos hmem, find?_mapUpdate]
    have hsome : (m.find? (fun p => p.1 == k)).isSome :=
      List.find?_isSome.mpr (List.any_eq_true.mp hmem)
    rcases Option.isSome_iff_exists.mp hsome with ⟨p, hp⟩
    have hpred := List.find?_some hp
    simp only [beq_iff_eq] at hpred
    simp [hp, hpred]
  · rw [if_neg hmem, List.find?_append]
    have hfind : m.find? (fun p => p.1 == k) = none := by
      rw [List.find?_eq_none]
      intro x hx hpx
      exact hmem (List.any_eq_true.mpr ⟨x, hx, hpx⟩)
    simp [hfind, List.find?]

/-- Looking up any other key is unaffected by an assignment. -/
theorem dictGet?_dictSet_ne {α : Type} (m : List (String × α)) (k k' : String) (v : α)
    (h : k ≠ k') : dictGet? (dictSet m k v) k' = dictGet? m k' := by
  unfold dictSet dictGet?
  by_cases hmem : m.any (fun p => p.1 == k)
  · rw [if_pos hmem, find?_mapUpdate]
    cases hfind : m.find? (fun p => p.1 == k') with
    | none => simp
    | some p =>
        have hpred := List.find?_some hfind
        simp only [beq_iff_eq] at hpred
        have hpk : ¬ p.1 = k := by
          rw [hpred]
          exact fun hc => h hc.symm
        simp [hpk]
  · rw [if_neg hmem, List.find?_append]
    have hlast : (((k, v) : String × α).1 == k') = false := by simpa using h
    cases hfind : m.find? (fun p => p.1 == k') with
    | none => simp [hfind, List.find?, hlast]
    | some p => simp [hfind]

/-! ## Set-list and sort lemmas -/

/-- Membership in the running `pySetList` fold. -/
theorem mem_pySetList_fold (x : String) :
    ∀ (l acc : List String),
      (x ∈ l.foldl (fun acc s => if acc.contains s then acc else acc ++ [s]) acc ↔
        x ∈ acc ∨ x ∈ l) := by
  intro l
  induction l with
  | nil => intro acc; simp
  | cons y ys ih =>
      intro acc
      by_cases hy : acc.contains y
      · rw [List.foldl_cons, if_pos hy, ih]
        constructor
        · rintro (h | h)
          · exact Or.inl h
          · exact Or.inr (List.mem_cons_of_mem y h)
        · rintro (h | h)
          · exact Or.inl h
          · rcases List.mem_cons.mp h with rfl | h'
            · exact Or.inl (List.elem_iff.mp hy)
            · exact Or.inr h'
      · rw [List.foldl_cons, if_neg hy, ih]
        constructor
        · rintro (h | h)
          · rcases List.mem_append.mp h with h' | h'
            · exact Or.inl h'
            · simp at h'
              subst h'
              exact Or.inr (List.mem_cons_self _ _)
          · exact Or.inr (List.mem_cons_of_mem y h)
        · rintro (h | h)
          · exact Or.inl (List.mem_append_left _ h)
          · rcases List.mem_cons.mp h with rfl | h'
            · exact Or.inl (List.mem_append_right _ (by simp))
            · exact Or.inr h'

/-- The set list `pySetList` has the same members as its input. -/
theorem mem_pySetList (x : String) (l : List String) : x ∈ pySetList l ↔ x ∈ l := by
  unfold pySetList
  rw [mem_pySetList_fold]
  simp

/-- The `pySetList` fold preserves `Nodup`. -/
theorem pySetList_fold_nodup :
    ∀ (l acc : List String), acc.Nodup →
      (l.foldl (fun acc s => if acc.contains s then acc else acc ++ [s]) acc).Nodup := by
  intro l
  induction l with
  | nil => intro acc h; simpa using h
  | cons y ys ih =>
      intro acc h
      by_cases hy : acc.contains y
      · rw [List.foldl_cons, if_pos hy]
        exact ih acc h
      · rw [List.foldl_cons, if_neg hy]
        refine ih _ ?_
        refine List.Nodup.append h (by simp) ?_
        intro a ha hb
        simp at hb
        subst hb
        exact absurd (List.elem_iff.mpr ha) (by simpa using hy)

/-- The set list `pySetList` produces a duplicate-free list. -/
theorem pySetList_nodup (l : List String) : (pySetList l).Nodup :=
  pySetList_fold_nodup l [] List.nodup_nil

/-- Inserting into a sorted list adds one element. -/
theorem length_insertSorted {α : Type} (le : α → α → Bool) (s : α) :
    ∀ l : List α, (insertSorted le s l).length = l.length + 1 := by
  intro l
  induction l with
  | nil => rfl
  | cons t ts ih =>
      by_cases h : le s t
      · simp [insertSorted, h]
      · simp [insertSorted, h, ih]

/-- The stable sort preserves length. -/
theorem length_stableSort {α : Type} (le : α → α → Bool) (l : List α) :
    (stableSort le l).length = l.length := by
  unfold stableSort
  induction l with
  | nil => rfl
  | cons t ts ih => simp [List.foldr_cons, length_insertSorted, ih]

/-- The stable sort of a list is empty exactly when the list is. -/
theorem stableSort_eq_nil_iff {α : Type} (le : α → α → Bool) (l : List α) :
    stableSort le l = [] ↔ l = [] := by
  constructor
  · intro h
    have := length_stableSort le l
    rw [h] at this
    exact List.length_eq_zero.mp this.symm
  · rintro rfl
    rfl

/-! ## Average and weight-fold bridges -/

/-- The guarded average of `_calculate_weighted_average_score` equals the
unguarded quotient (an empty score list gives `0 = 0 / 0`). -/
theorem avg_eq_sum_div (category_name : String) (panel_reviews : List AgentReview) :
    calculate_weighted_average_score category_name panel_reviews =
      ((scoresForCategory category_name panel_reviews).map (fun s => (s : ℚ))).sum /
        (scoresForCategory category_name panel_reviews).length := by
  unfold calculate_weighted_average_score
  by_cases h : (scoresForCategory category_name panel_reviews).isEmpty
  · rw [if_pos h]
    rw [List.isEmpty_iff] at h
    simp [h]
  · rw [if_neg h]

/-- The running-total fold of the weight sum. -/
theorem weights_foldl_eq_sum (categories : List RubricCategory) :
    ∀ a : ℚ, categories.foldl (fun total c => total + c.weight) a =
      a + (categories.map (·.weight)).sum := by
  induction categories with
  | nil => intro a; simp
  | cons c cs ih => intro a; simp [List.foldl_cons, ih, add_assoc]

/-! ## Claim C5 — DecisionPacket construction invariants -/

/-- Success characterisation of `mkDecisionPacket`. -/
theorem mkDecisionPacket_isOk_iff (role_title : String) (score : ℚ)
    (confidence : Confidence) (recommendation : Option Recommendation)
    (top_strengths top_risks must_have_gaps : List String)
    (disagreements : List Disagreement) :
    (mkDecisionPacket role_title score confidence recommendation top_strengths
        top_risks must_have_gaps disagreements).isOk = true ↔
      (1 ≤ role_title.length ∧ 0 ≤ score ∧ score ≤ 5 ∧
        3 ≤ top_strengths.length ∧ top_strengths.length ≤ 5 ∧
        3 ≤ top_risks.length ∧ top_risks.length ≤ 5 ∧
        ¬ (must_have_gaps ≠ [] ∧ recommendation = some .hire) ∧
        ¬ (4 ≤ score ∧ (recommendation = some .leanNo ∨ recommendation = some .no)) ∧
        ¬ (score < 2 ∧ (recommendation = some .hire ∨ recommendation = some .leanHire))) := by
  unfold mkDecisionPacket
  split_ifs with h1 h2 h3 h4 h5 h6 h7
  · exact iff_of_false (by simp [Except.isOk, Except.toBool])
      (fun hc => by obtain ⟨ha, -⟩ := hc; omega)
  · exact iff_of_false (by simp [Except.isOk, Except.toBool])
      (fun hc => by
        obtain ⟨-, hb, hcle, -⟩ := hc
        rcases h2 with h | h <;> linarith)
  · exact iff_of_false (by simp [Except.isOk, Except.toBool])
      (fun hc => by obtain ⟨-, -, -, ha, hb, -⟩ := hc; omega)
  · exact iff_of_false (by simp [Except.isOk, Except.toBool])
      (fun hc => by obtain ⟨-, -, -, -, -, ha, hb, -⟩ := hc; omega)
  · exact iff_of_false (by simp [Except.isOk, Except.toBool])
      (fun hc => hc.2.2.2.2.2.2.2.1 h5)
  · exact iff_of_false (by simp [Except.isOk, Except.toBool])
      (fun hc => hc.2.2.2.2.2.2.2.2.1 h6)
  · exact iff_of_false (by simp [Except.isOk, Except.toBool])
      (fun hc => hc.2.2.2.2.2.2.2.2.2 h7)
  · refine iff_of_true (by simp [Except.isOk, Except.toBool]) ?_
    have h2' := not_or.mp h2
    exact ⟨by omega, le_of_not_lt h2'.1, not_lt.mp h2'.2, by omega, by omega, by omega,
      by omega, h5, h6, h7⟩

/-- Constructing from an `Except.ok` result recovers exactly the argument
fields. -/
theorem mkDecisionPacket_ok_inv (role_title : String) (score : ℚ)
    (confidence : Confidence) (recommendation : Option Recommendation)
    (top_strengths top_risks must_have_gaps : List String)
    (disagreements : List Disagreement) (p : DecisionPacket)
    (h : mkDecisionPacket role_title score confidence recommendation top_strengths
        top_risks must_have_gaps disagreements = .ok p) :
    p.role_title = role_title ∧ p.overall_fit_score = score ∧
      p.confidence = confidence ∧ p.recommendation = recommendation ∧
      p.top_strengths = top_strengths ∧ p.top_risks = top_risks ∧
      p.must_have_gaps = must_have_gaps ∧ p.disagreements = disagreements := by
  unfold mkDecisionPacket at h
  split_ifs at h <;> cases h
  exact ⟨rfl, rfl, rfl, rfl, rfl, rfl, rfl, rfl⟩

/-- Claim C5: a `DecisionPacket` whose other fields satisfy their own field
constraints fails to construct exactly when one of the three
recommendation-alignment invariants is violated: `Hire` alongside non-empty
`must_have_gaps`, a score `≥ 4.0` alongside `Lean no`/`No`, or a score
`< 2.0` alongside `Hire`/`Lean hire`. -/
theorem decision_packet_alignment_invariants (role_title : String) (score : ℚ)
    (confidence : Confidence) (recommendation : Option Recommendation)
    (top_strengths top_risks must_have_gaps : List String)
    (disagreements : List Disagreement)
    (htitle : 1 ≤ role_title.length)
    (hs0 : 0 ≤ score) (hs5 : score ≤ 5)
    (hst : 3 ≤ top_strengths.length ∧ top_strengths.length ≤ 5)
    (hrk : 3 ≤ top_risks.length ∧ top_risks.length ≤ 5) :
    (mkDecisionPacket role_title score confidence recommendation top_strengths
        top_risks must_have_gaps disagreements).isOk = false ↔
      ((must_have_gaps ≠ [] ∧ recommendation = some .hire) ∨
       (4 ≤ score ∧ (recommendation = some .leanNo ∨ recommendation = some .no)) ∨
       (score < 2 ∧ (recommendation = some .hire ∨ recommendation = some .leanHire))) := by
  obtain ⟨hst1, hst2⟩ := hst
  obtain ⟨hrk1, hrk2⟩ := hrk
  rw [Bool.eq_false_iff, ne_eq, mkDecisionPacket_isOk_iff]
  tauto

/-- Witness for C5: on otherwise-valid fields, score 4.5 with
recommendation `No` fails, score 4.5 with `Hire` and a gap fails, and score
4.5 with `Hire` and no gaps constructs. -/
theorem decision_packet_alignment_witness :
    (mkDecisionPacket "Role" (9/2) .high (some .no) ["a", "b", "c"] ["d", "e", "f"]
        [] []).isOk = false ∧
    (mkDecisionPacket "Role" (9/2) .high (some .hire) ["a", "b", "c"] ["d", "e", "f"]
        ["X"] []).isOk = false ∧
    (mkDecisionPacket "Role" (9/2) .high (some .hire) ["a", "b", "c"] ["d", "e", "f"]
        [] []).isOk = true := by
  have harg1 : (1 : ℕ) ≤ "Role".length := by decide
  have harg2 : (0 : ℚ) ≤ 9/2 := by norm_num
  have harg3 : (9 : ℚ)/2 ≤ 5 := by norm_num
  have harg4 : 3 ≤ (["a", "b", "c"] : List String).length ∧
      (["a", "b", "c"] : List String).length ≤ 5 := by decide
  have harg5 : 3 ≤ (["d", "e", "f"] : List String).length ∧
      (["d", "e", "f"] : List String).length ≤ 5 := by decide
  refine ⟨?_, ?_, ?_⟩
  · exact (decision_packet_alignment_invariants "Role" (9/2) .high (some .no)
      ["a", "b", "c"] ["d", "e", "f"] [] [] harg1 harg2 harg3 harg4 harg5).mpr
      (Or.inr (Or.inl ⟨by norm_num, Or.inr rfl⟩))
  · exact (decision_packet_alignment_invariants "Role" (9/2) .high (some .hire)
      ["a", "b", "c"] ["d", "e", "f"] ["X"] [] harg1 harg2 harg3 harg4 harg5).mpr
      (Or.inl ⟨by simp, rfl⟩)
  · have h := decision_packet_alignment_invariants "Role" (9/2) .high (some .hire)
      ["a", "b", "c"] ["d", "e", "f"] [] [] harg1 harg2 harg3 harg4 harg5
    cases hb : (mkDecisionPacket "Role" (9/2) .high (some .hire) ["a", "b", "c"]
        ["d", "e", "f"] [] []).isOk with
    | true => rfl
    | false =>
        exfalso
        rcases h.mp hb with ⟨hgap, -⟩ | ⟨-, hrec⟩ | ⟨hscore, -⟩
        · exact hgap rfl
        · rcases hrec with hrec | hrec <;> simp at hrec
        · norm_num at hscore

/-! ## Claim C6 — Rubric construction invariants -/

/-- Claim C6: with a non-empty role title, constructing a `Rubric` succeeds
exactly when the category weights sum to `1.0 ± 0.01` and at least one
category is flagged `is_must_have` (so a weight sum of `0.9` fails, and a
missing must-have flag fails). -/
theorem rubric_construction_invariants (role_title : String)
    (categories : List RubricCategory) (htitle : 1 ≤ role_title.length) :
    (mkRubric role_title categories).isOk = true ↔
      (|(categories.map (·.weight)).sum - 1| ≤ 1/100 ∧
        ∃ c ∈ categories, c.is_must_have = true) := by
  unfold mkRubric
  rw [weights_foldl_eq_sum categories 0, zero_add]
  rw [if_neg (show ¬ role_title.length < 1 by omega)]
  by_cases h2 : categories.length < 1
  · rw [if_pos h2]
    have hnil : categories = [] := List.length_eq_zero.mp (by omega)
    subst hnil
    refine iff_of_false (by simp [Except.isOk, Except.toBool]) ?_
    rintro ⟨hw, -⟩
    simp only [List.map_nil, List.sum_nil] at hw
    rw [abs_le] at hw
    have := hw.1
    norm_num at this
  · rw [if_neg h2]
    by_cases h3 : |(categories.map (·.weight)).sum - 1| ≤ 1/100
    · rw [if_neg (not_not_intro h3)]
      by_cases h4 : (categories.filter (fun c => c.is_must_have)).isEmpty
      · rw [if_pos h4]
        refine iff_of_false (by simp [Except.isOk, Except.toBool]) ?_
        rintro ⟨-, c, hcmem, hcmust⟩
        rw [List.isEmpty_iff, List.filter_eq_nil_iff] at h4
        exact absurd hcmust (by simpa using h4 c hcmem)
      · rw [if_neg h4]
        refine iff_of_true (by simp [Except.isOk, Except.toBool]) ?_
        refine ⟨h3, ?_⟩
        have h4' : categories.filter (fun c => c.is_must_have) ≠ [] := by
          simpa [List.isEmpty_iff] using h4
        rcases List.exists_cons_of_ne_nil h4' with ⟨c, cs, hcons⟩
        have hcmem : c ∈ categories.filter (fun c => c.is_must_have) := by
          rw [hcons]
          exact List.mem_cons_self c cs
        rcases List.mem_filter.mp hcmem with ⟨hmem, hmust⟩
        exact ⟨c, hmem, hmust⟩
    · rw [if_pos h3]
      exact iff_of_false (by simp [Except.isOk, Except.toBool]) (fun hc => h3 hc.1)

/-- Witness for C6: weights summing to `0.9` fail, and a single must-have
category of weight 1 constructs. -/
theorem rubric_construction_witness :
    (mkRubric "Role" [⟨"A", 1/2, true⟩, ⟨"B", 2/5, false⟩]).isOk = false ∧
    (mkRubric "Role" [⟨"A", 1, true⟩]).isOk = true := by
  constructor
  · have h := rubric_construction_invariants "Role"
      [⟨"A", 1/2, true⟩, ⟨"B", 2/5, false⟩] (by decide)
    cases hb : (mkRubric "Role" [⟨"A", 1/2, true⟩, ⟨"B", 2/5, false⟩]).isOk with
    | false => rfl
    | true =>
        exfalso
        rcases h.mp hb with ⟨hw, -⟩
        simp only [List.map_cons, List.map_nil, List.sum_cons, List.sum_nil] at hw
        rw [abs_le] at hw
        have := hw.1
        norm_num at this
  · exact (rubric_construction_invariants "Role" [⟨"A", 1, true⟩] (by decide)).mpr
      ⟨by norm_num, ⟨"A", 1, true⟩, by simp, rfl⟩

/-! ## Claim C9 — retry policy -/

/-- Claim C9: under the default policy (3 attempts, base delay 1), a node
whose `k`-th attempt succeeds after `k - 1` failures returns that success
with backoff sleeps `2^0, …, 2^(k-2)` (so 1 then 2 before a third-attempt
success), and a node failing all 3 attempts propagates the third attempt's
exception after sleeping 1 and 2. -/
theorem retry_policy_spec {E A : Type} (f : Nat → Except E A) :
    (∀ (k : Nat) (a : A), 1 ≤ k → k ≤ 3 → f k = .ok a →
      (∀ j, 1 ≤ j → j < k → ∃ e, f j = .error e) →
      retry_on_failure 3 1 f = (.ok a, (List.range (k - 1)).map (fun i => (2 : ℚ) ^ i)))
    ∧ ((∀ j, 1 ≤ j → j ≤ 3 → ∃ e, f j = .error e) →
      ∃ e₃, f 3 = .error e₃ ∧ retry_on_failure 3 1 f = (.error e₃, [1, 2])) := by
  constructor
  · intro k a hk1 hk3 hfk hprev
    interval_cases k
    · simp [retry_on_failure, retryAux, hfk]
    · obtain ⟨e₁, he₁⟩ := hprev 1 (by norm_num) (by norm_num)
      simp [retry_on_failure, retryAux, hfk, he₁]
      simp [List.range_succ, List.range_zero]
    · obtain ⟨e₁, he₁⟩ := hprev 1 (by norm_num) (by norm_num)
      obtain ⟨e₂, he₂⟩ := hprev 2 (by norm_num) (by norm_num)
      simp [retry_on_failure, retryAux, hfk, he₁, he₂]
      simp [List.range_succ, List.range_zero]
  · intro hall
    obtain ⟨e₁, he₁⟩ := hall 1 (by norm_num) (by norm_num)
    obtain ⟨e₂, he₂⟩ := hall 2 (by norm_num) (by norm_num)
    obtain ⟨e₃, he₃⟩ := hall 3 (by norm_num) (by norm_num)
    refine ⟨e₃, he₃, ?_⟩
    simp [retry_on_failure, retryAux, he₁, he₂, he₃]

/-- Witness for C9 (Scenario E): outcomes failing twice then succeeding with
42 give an overall success after sleeping 1 and then 2. -/
theorem retry_policy_witness :
    retry_on_failure 3 1 exRetryOutcomes = (.ok 42, [1, 2]) := by
  have h := (retry_policy_spec exRetryOutcomes).1 3 42 (by norm_num) (by norm_num) rfl
    (by
      intro j h1 h2
      interval_cases j
      · exact ⟨"fail 1", rfl⟩
      · exact ⟨"fail 2", rfl⟩)
  rw [h]
  norm_num
  rfl

/-! ## Claim C10 — deduplication underflow makes packet construction fail -/

/-- Claim C10: whenever the pooled top strengths (or risks) deduplicate to
fewer than 3 entries, `_create_decision_packet` fails the `DecisionPacket`
3–5-items validation instead of producing a packet. -/
theorem dedup_underflow_fails_packet (rubric : Rubric)
    (panel_reviews : List AgentReview) (disagreements : List Disagreement)
    (agent_working_memory : List (String × WorkingMemory))
    (h : (deduplicate_strengths_risks (allStrengths panel_reviews)).length < 3 ∨
      (deduplicate_strengths_risks (allRisks panel_reviews)).length < 3) :
    (create_decision_packet rubric panel_reviews disagreements
        agent_working_memory).isOk = false := by
  unfold create_decision_packet
  rw [Bool.eq_false_iff, ne_eq, mkDecisionPacket_isOk_iff]
  intro hc
  rcases h with h | h
  · obtain ⟨-, -, -, h3, -⟩ := hc
    omega
  · obtain ⟨-, -, -, -, -, h5, -⟩ := hc
    omega

/-- Witness for C10: a review whose strengths collapse to 2 entries after
normalisation makes decision-packet creation fail. -/
theorem dedup_underflow_witness :
    (deduplicate_strengths_risks (allStrengths [exReviewDupStrengths])).length < 3 ∧
    (create_decision_packet exRubricA [exReviewDupStrengths] [] []).isOk = false := by
  have hlen : (deduplicate_strengths_risks (allStrengths [exReviewDupStrengths])).length < 3 := by
    decide
  exact ⟨hlen, dedup_underflow_fails_packet _ _ _ _ (Or.inl hlen)⟩

/-! ## Claim C4 — panel/memory consistency validation -/

/-- Sorting does not change emptiness. -/
theorem sortStrings_eq_nil_iff (l : List String) : sortStrings l = [] ↔ l = [] :=
  stableSort_eq_nil_iff strLeB l

/-- A role is in the panel role set exactly when some review carries it. -/
theorem mem_panelRoleSet (panel_reviews : List AgentReview) (role : String) :
    role ∈ pySetList (panel_reviews.map (·.agent_role)) ↔
      ∃ rv ∈ panel_reviews, rv.agent_role = role := by
  rw [mem_pySetList]
  exact List.mem_map

/-- A role is in the memory key set exactly when some memory entry carries
it. -/
theorem mem_memoryRoleSet (agent_working_memory : List (String × WorkingMemory))
    (role : String) :
    role ∈ pySetList (agent_working_memory.map (·.1)) ↔
      ∃ p ∈ agent_working_memory, p.1 = role := by
  rw [mem_pySetList]
  exact List.mem_map

/-- Claim C4: the consistency validator raises exactly when a review role is
non-canonical, a memory key is non-canonical, the two role sets differ, or a
memory entry's embedded `agent_role` differs from its key; moreover in the
role-set-mismatch case (with checks (a) and (b) passing) the error is the
message built from precisely the sorted missing and extra role lists. -/
theorem panel_memory_consistency_spec (panel_reviews : List AgentReview)
    (agent_working_memory : List (String × WorkingMemory)) :
    ((∃ e, validate_panel_memory_consistency panel_reviews agent_working_memory =
        .error e) ↔
      ((∃ rv ∈ panel_reviews, rv.agent_role ∉ validRoles) ∨
       (∃ p ∈ agent_working_memory, p.1 ∉ validRoles) ∨
       (¬ ∀ role, (∃ rv ∈ panel_reviews, rv.agent_role = role) ↔
          (∃ p ∈ agent_working_memory, p.1 = role)) ∨
       (∃ p ∈ agent_working_memory, p.2.agent_role ≠ p.1)))
    ∧ ((∀ rv ∈ panel_reviews, rv.agent_role ∈ validRoles) →
       (∀ p ∈ agent_working_memory, p.1 ∈ validRoles) →
       (¬ ∀ role, (∃ rv ∈ panel_reviews, rv.agent_role = role) ↔
          (∃ p ∈ agent_working_memory, p.1 = role)) →
       validate_panel_memory_consistency panel_reviews agent_working_memory =
         .error (panelMismatchMessage
           (sortStrings ((pySetList (panel_reviews.map (·.agent_role))).filter
             (fun r => !((pySetList (agent_working_memory.map (·.1))).contains r))))
           (sortStrings ((pySetList (agent_working_memory.map (·.1))).filter
             (fun r => !((pySetList (panel_reviews.map (·.agent_role))).contains r))))
           (sortStrings (pySetList (panel_reviews.map (·.agent_role))))
           (sortStrings (pySetList (agent_working_memory.map (·.1)))))) := by
  have hAiff : ¬ (sortStrings ((pySetList (panel_reviews.map (·.agent_role))).filter
      (fun r => !(validRoles.contains r)))).isEmpty = true ↔
      ∃ rv ∈ panel_reviews, rv.agent_role ∉ validRoles := by
    rw [List.isEmpty_iff, sortStrings_eq_nil_iff, List.filter_eq_nil_iff]
    push_neg
    constructor
    · rintro ⟨r, hr, hq⟩
      rcases (mem_panelRoleSet panel_reviews r).mp hr with ⟨rv, hrv, hrole⟩
      refine ⟨rv, hrv, ?_⟩
      rw [hrole]
      simpa [List.elem_iff] using hq
    · rintro ⟨rv, hrv, hrole⟩
      refine ⟨rv.agent_role, (mem_panelRoleSet panel_reviews _).mpr ⟨rv, hrv, rfl⟩, ?_⟩
      simpa [List.elem_iff] using hrole
  have hBiff : ¬ (sortStrings ((pySetList (agent_working_memory.map (·.1))).filter
      (fun r => !(validRoles.contains r)))).isEmpty = true ↔
      ∃ p ∈ agent_working_memory, p.1 ∉ validRoles := by
    rw [List.isEmpty_iff, sortStrings_eq_nil_iff, List.filter_eq_nil_iff]
    push_neg
    constructor
    · rintro ⟨r, hr, hq⟩
      rcases (mem_memoryRoleSet agent_working_memory r).mp hr with ⟨p, hp, hrole⟩
      refine ⟨p, hp, ?_⟩
      rw [hrole]
      simpa [List.elem_iff] using hq
    · rintro ⟨p, hp, hrole⟩
      refine ⟨p.1, (mem_memoryRoleSet agent_working_memory _).mpr ⟨p, hp, rfl⟩, ?_⟩
      simpa [List.elem_iff] using hrole
  have hCiff : ¬ ((sortStrings ((pySetList (panel_reviews.map (·.agent_role))).filter
        (fun r => !((pySetList (agent_working_memory.map (·.1))).contains r)))).isEmpty = true ∧
      (sortStrings ((pySetList (agent_working_memory.map (·.1))).filter
        (fun r => !((pySetList (panel_reviews.map (·.agent_role))).contains r)))).isEmpty = true) ↔
      ¬ ∀ role, (∃ rv ∈ panel_reviews, rv.agent_role = role) ↔
        (∃ p ∈ agent_working_memory, p.1 = role) := by
    rw [not_iff_not]
    rw [List.isEmpty_iff, List.isEmpty_iff, sortStrings_eq_nil_iff, sortStrings_eq_nil_iff,
      List.filter_eq_nil_iff, List.filter_eq_nil_iff]
    constructor
    · rintro ⟨hmiss, hextra⟩ role
      constructor
      · intro hrole
        have hmem := hmiss role ((mem_panelRoleSet panel_reviews role).mpr hrole)
        have hmem' : role ∈ pySetList (agent_working_memory.map (·.1)) :=
          List.elem_iff.mp (by simpa using hmem)
        exact (mem_memoryRoleSet agent_working_memory role).mp hmem'
      · intro hrole
        have hmem := hextra role ((mem_memoryRoleSet agent_working_memory role).mpr hrole)
        have hmem' : role ∈ pySetList (panel_reviews.map (·.agent_role)) :=
          List.elem_iff.mp (by simpa using hmem)
        exact (mem_panelRoleSet panel_reviews role).mp hmem'
    · intro hiff
      constructor
      · intro r hr
        have hr' := (hiff r).mp ((mem_panelRoleSet panel_reviews r).mp hr)
        have : r ∈ pySetList (agent_working_memory.map (·.1)) :=
          (mem_memoryRoleSet agent_working_memory r).mpr hr'
        simpa using List.elem_iff.mpr this
      · intro r hr
        have hr' := (hiff r).mpr ((mem_memoryRoleSet agent_working_memory r).mp hr)
        have : r ∈ pySetList (panel_reviews.map (·.agent_role)) :=
          (mem_panelRoleSet panel_reviews r).mpr hr'
        simpa using List.elem_iff.mpr this
  constructor
  · unfold validate_panel_memory_consistency
    by_cases hA : (sortStrings ((pySetList (panel_reviews.map (·.agent_role))).filter
        (fun r => !(validRoles.contains r)))).isEmpty
    · rw [if_neg (by simpa using hA)]
      by_cases hB : (sortStrings ((pySetList (agent_working_memory.map (·.1))).filter
          (fun r => !(validRoles.contains r)))).isEmpty
      · rw [if_neg (by simpa using hB)]
        by_cases hC : (sortStrings ((pySetList (panel_reviews.map (·.agent_role))).filter
            (fun r => !((pySetList (agent_working_memory.map (·.1))).contains r)))).isEmpty ∧
            (sortStrings ((pySetList (agent_working_memory.map (·.1))).filter
              (fun r => !((pySetList (panel_reviews.map (·.agent_role))).contains r)))).isEmpty
        · rw [if_neg (by
            simp only [hC.1, hC.2, Bool.not_true, Bool.or_self]
            simp)]
          cases hfind : agent_working_memory.find? (fun p => p.2.agent_role != p.1) with
          | some p =>
              refine iff_of_true ⟨_, rfl⟩ (Or.inr (Or.inr (Or.inr ?_)))
              refine ⟨p, List.mem_of_find?_eq_some hfind, ?_⟩
              have := List.find?_some hfind
              simpa using this
          | none =>
              refine iff_of_false (by simp) ?_
              rw [List.find?_eq_none] at hfind
              rintro (h | h | h | h)
              · exact (hAiff.mpr h) hA
              · exact (hBiff.mpr h) hB
              · exact (hCiff.mpr h) ⟨hC.1, hC.2⟩
              · rcases h with ⟨p, hp, hne⟩
                exact absurd (by simpa using hne) (by simpa using hfind p hp)
        · rw [if_pos (by
            rcases not_and_or.mp hC with h | h
            · simp [Bool.not_eq_true] at h ⊢
              exact Or.inl h
            · simp [Bool.not_eq_true] at h ⊢
              exact Or.inr h)]
          exact iff_of_true ⟨_, rfl⟩ (Or.inr (Or.inr (Or.inl (hCiff.mp hC))))
      · rw [if_pos (by simpa using hB)]
        exact iff_of_true ⟨_, rfl⟩ (Or.inr (Or.inl (hBiff.mp hB)))
    · rw [if_pos (by simpa using hA)]
      exact iff_of_true ⟨_, rfl⟩ (Or.inl (hAiff.mp hA))
  · intro hvalidP hvalidM hmismatch
    unfold validate_panel_memory_consistency
    have hA : (sortStrings ((pySetList (panel_reviews.map (·.agent_role))).filter
        (fun r => !(validRoles.contains r)))).isEmpty = true := by
      by_contra hA
      rcases hAiff.mp hA with ⟨rv, hrv, hout⟩
      exact hout (hvalidP rv hrv)
    have hB : (sortStrings ((pySetList (agent_working_memory.map (·.1))).filter
        (fun r => !(validRoles.contains r)))).isEmpty = true := by
      by_contra hB
      rcases hBiff.mp hB with ⟨p, hp, hout⟩
      exact hout (hvalidM p hp)
    rw [if_neg (by simpa using hA), if_neg (by simpa using hB)]
    have hC : ¬ ((sortStrings ((pySetList (panel_reviews.map (·.agent_role))).filter
        (fun r => !((pySetList (agent_working_memory.map (·.1))).contains r)))).isEmpty = true ∧
        (sortStrings ((pySetList (agent_working_memory.map (·.1))).filter
          (fun r => !((pySetList (panel_reviews.map (·.agent_role))).contains r)))).isEmpty = true) :=
      hCiff.mpr hmismatch
    rw [if_pos (by
      rcases not_and_or.mp hC with h | h
      · simp [Bool.not_eq_true] at h ⊢
        exact Or.inl h
      · simp [Bool.not_eq_true] at h ⊢
        exact Or.inr h)]

/-- Witness for C4 (Scenario C): reviews for HR and Tech with memory for HR
only raise, with the message naming Tech as missing. -/
theorem panel_memory_consistency_witness :
    validate_panel_memory_consistency [exReviewDK_HR, exReviewDK_Tech]
        [("HR", exMemoryHR)] =
      .error (panelMismatchMessage ["Tech"] [] ["HR", "Tech"] ["HR"]) ∧
    pyInStr "Tech" (panelMismatchMessage ["Tech"] [] ["HR", "Tech"] ["HR"]) = true := by
  constructor
  · have h := (panel_memory_consistency_spec [exReviewDK_HR, exReviewDK_Tech]
      [("HR", exMemoryHR)]).2
        (by decide)
        (by decide)
        (by
          intro hall
          have := (hall "Tech").mp ⟨exReviewDK_Tech, by simp [exReviewDK_Tech], rfl⟩
          rcases this with ⟨p, hp, hrole⟩
          simp at hp
          rw [hp] at hrole
          exact absurd hrole (by decide))
    rw [h]
    rfl
  · decide

/-! ## Claim C2 — overall fit score aggregation -/

/-- The pair fold of `_create_decision_packet`'s scoring loop accumulates
the weighted-average sum and the weight sum. -/
theorem overall_foldl_eq (panel_reviews : List AgentReview) :
    ∀ (categories : List RubricCategory) (a b : ℚ),
      categories.foldl (fun (p : ℚ × ℚ) category =>
        (p.1 + category.weight * calculate_weighted_average_score category.name panel_reviews,
         p.2 + category.weight)) (a, b) =
      (a + (categories.map (fun c =>
          c.weight * calculate_weighted_average_score c.name panel_reviews)).sum,
       b + (categories.map (·.weight)).sum) := by
  intro categories
  induction categories with
  | nil => intro a b; simp
  | cons c cs ih =>
      intro a b
      simp only [List.foldl_cons, List.map_cons, List.sum_cons, ih]
      rw [Prod.mk.injEq]
      constructor <;> ring

/-- Rounding zero gives zero. -/
theorem round1_zero : round1 0 = 0 := by
  norm_num [round1, pyRound]

/-- The code's overall fit score equals the weighted-average sum divided by
the sum of ALL category weights (not only the represented ones), rounded to
one decimal — categories nobody scored keep their weight in the denominator
and contribute average 0 to the numerator. -/
theorem overallFitScore_spec (rubric : Rubric) (panel_reviews : List AgentReview)
    (hw : ∀ c ∈ rubric.categories, 0 ≤ c.weight) :
    overallFitScore rubric panel_reviews =
      round1 ((rubric.categories.map (fun c =>
          c.weight * calculate_weighted_average_score c.name panel_reviews)).sum /
        (rubric.categories.map (·.weight)).sum) := by
  rw [overallFitScore]
  simp only [overall_foldl_eq panel_reviews rubric.categories 0 0, zero_add]
  by_cases hpos : 0 < (rubric.categories.map (·.weight)).sum
  · rw [if_pos hpos]
  · rw [if_neg hpos]
    have hnonneg : 0 ≤ (rubric.categories.map (·.weight)).sum :=
      List.sum_nonneg (by
        intro x hx
        rcases List.mem_map.mp hx with ⟨c, hc, rfl⟩
        exact hw c hc)
    have hzero : (rubric.categories.map (·.weight)).sum = 0 := le_antisymm (not_lt.mp hpos) hnonneg
    have hwzero := sum_nonneg_all_zero (rubric.categories.map (·.weight))
      (by
        intro x hx
        rcases List.mem_map.mp hx with ⟨c, hc, rfl⟩
        exact hw c hc) hzero
    have hnum : (rubric.categories.map (fun c =>
        c.weight * calculate_weighted_average_score c.name panel_reviews)).sum = 0 := by
      apply List.sum_eq_zero
      intro x hx
      rcases List.mem_map.mp hx with ⟨c, hc, rfl⟩
      have : c.weight = 0 := hwzero c.weight (List.mem_map.mpr ⟨c, hc, rfl⟩)
      rw [this, zero_mul]
    rw [hnum, hzero, zero_div, round1_zero]

/-- Counterexample to C2 as claimed: with weights `1/2, 1/2` and only the
first category scored (at 4), the code divides by the full weight sum `1.0`
and yields `2.0`, while dividing by the represented weight `0.5` as the
claim states would yield `4.0`. -/
theorem overallFitScore_vs_spec_counterexample :
    overallFitScore exRubricHalf [exReviewHR4] = 2 ∧
    specOverallFitScore exRubricHalf [exReviewHR4] = 4 ∧
    overallFitScore exRubricHalf [exReviewHR4] ≠
      specOverallFitScore exRubricHalf [exReviewHR4] := by
  have havgA : calculate_weighted_average_score "A" [exReviewHR4] = 4 := by
    simp only [calculate_weighted_average_score, scoresForCategory, findCategoryScore,
      exReviewHR4, List.find?, List.foldl_cons, List.foldl_nil, String.reduceBEq,
      Option.map_some']
    norm_num
  have havgB : calculate_weighted_average_score "B" [exReviewHR4] = 0 := by
    simp only [calculate_weighted_average_score, scoresForCategory, findCategoryScore,
      exReviewHR4, List.find?, List.foldl_cons, List.foldl_nil, String.reduceBEq,
      Option.map_none']
    norm_num
  have hcode : overallFitScore exRubricHalf [exReviewHR4] = 2 := by
    rw [overallFitScore]
    simp only [exRubricHalf, List.foldl_cons, List.foldl_nil, havgA, havgB]
    norm_num [round1, pyRound]
  have hscores : scoresForCategory "A" [exReviewHR4] = [4] := by
    simp only [scoresForCategory, findCategoryScore, exReviewHR4, List.find?,
      List.foldl_cons, List.foldl_nil, String.reduceBEq, Option.map_some',
      List.nil_append]
  have hscoresB : scoresForCategory "B" [exReviewHR4] = [] := by
    simp only [scoresForCategory, findCategoryScore, exReviewHR4, List.find?,
      List.foldl_cons, List.foldl_nil, String.reduceBEq, Option.map_none']
  have hspec : specOverallFitScore exRubricHalf [exReviewHR4] = 4 := by
    rw [specOverallFitScore]
    simp only [exRubricHalf, List.filter_cons, List.filter_nil, hscores, hscoresB,
      List.isEmpty_cons, List.isEmpty_nil, Bool.not_false, Bool.not_true, if_true,
      if_false, List.map_cons, List.map_nil, List.sum_cons, List.sum_nil, havgA, havgB]
    norm_num [round1, pyRound]
  refine ⟨hcode, hspec, ?_⟩
  rw [hcode, hspec]
  norm_num

/-- Witness for the amended C2 on a concrete input with every category
weight non-negative. -/
theorem overallFitScore_spec_witness :
    (∀ c ∈ exRubricHalf.categories, 0 ≤ c.weight) ∧
    overallFitScore exRubricHalf [exReviewHR4] =
      round1 ((exRubricHalf.categories.map (fun c =>
          c.weight * calculate_weighted_average_score c.name [exReviewHR4])).sum /
        (exRubricHalf.categories.map (·.weight)).sum) := by
  have hw : ∀ c ∈ exRubricHalf.categories, 0 ≤ c.weight := by
    intro c hc
    simp only [exRubricHalf, List.mem_cons, List.mem_singleton] at hc
    rcases hc with rfl | rfl | h
    · norm_num
    · norm_num
    · cases h
  exact ⟨hw, overallFitScore_spec exRubricHalf [exReviewHR4] hw⟩

/-! ## Claim C1 — must-have gaps and the recommendation policy -/

/-- The gap-collecting fold is the filtered map over the rubric categories,
with the gap condition phrased as the claim states it: the unweighted mean
of the scores of the reviewers who scored the category (`0/0 = 0` when
nobody did, matching the code's 0.0 default) lies below 3. -/
theorem mustHaveGaps_eq (rubric : Rubric) (panel_reviews : List AgentReview) :
    mustHaveGaps rubric panel_reviews =
      (rubric.categories.filter (fun c => c.is_must_have &&
          decide ((((scoresForCategory c.name panel_reviews).map (fun s => (s : ℚ))).sum /
            (scoresForCategory c.name panel_reviews).length) < 3))).map
        (fun c => mustHaveGapText c.name
          (calculate_weighted_average_score c.name panel_reviews)) := by
  unfold mustHaveGaps
  rw [foldl_append_flatMap _
    (fun c => if c.is_must_have &&
        decide (calculate_weighted_average_score c.name panel_reviews < 3) then
      [mustHaveGapText c.name (calculate_weighted_average_score c.name panel_reviews)]
    else []) ?hstep rubric.categories []]
  case hstep =>
    intro acc c
    by_cases hm : c.is_must_have
    · by_cases hlt : calculate_weighted_average_score c.name panel_reviews < 3
      · simp [hm, hlt]
      · simp [hm, hlt]
    · simp [hm]
  rw [List.nil_append, flatMap_if_singleton]
  congr 1
  apply List.filter_congr
  intro c _
  rw [avg_eq_sum_div c.name panel_reviews]

/-- Case analysis of the recommendation policy in the claim's fixed-order
form. -/
theorem decideRecommendation_cases (score : ℚ) (gaps : List String) :
    (4 ≤ score ∧ gaps = [] → decideRecommendation score gaps = some .hire)
    ∧ (7/2 ≤ score ∧ score < 4 ∧ gaps = [] →
        decideRecommendation score gaps = some .leanHire)
    ∧ (gaps ≠ [] → decideRecommendation score gaps = some .no)
    ∧ (score < 5/2 ∧ gaps = [] → decideRecommendation score gaps = some .leanNo)
    ∧ (5/2 ≤ score ∧ score < 7/2 ∧ gaps = [] →
        decideRecommendation score gaps = none) := by
  refine ⟨?_, ?_, ?_, ?_, ?_⟩
  · rintro ⟨h4, hnil⟩
    rw [decideRecommendation, if_pos ⟨h4, hnil⟩]
  · rintro ⟨h35, h4, hnil⟩
    rw [decideRecommendation, if_neg (fun hc => absurd hc.1 (by linarith)),
      if_pos ⟨h35, hnil⟩]
  · intro hne
    rw [decideRecommendation, if_neg (fun hc => hne hc.2),
      if_neg (fun hc => hne hc.2), if_pos (Or.inr hne), if_pos hne]
  · rintro ⟨hlt, hnil⟩
    rw [decideRecommendation, if_neg (fun hc => absurd hc.1 (by linarith)),
      if_neg (fun hc => absurd hc.1 (by linarith)), if_pos (Or.inl hlt),
      if_neg (not_not_intro hnil)]
  · rintro ⟨h25, h35, hnil⟩
    rw [decideRecommendation, if_neg (fun hc => absurd hc.1 (by linarith)),
      if_neg (fun hc => absurd hc.1 (by linarith)),
      if_neg (not_or.mpr ⟨not_lt.mpr h25, not_not_intro hnil⟩)]

/-- Claim C1: a successfully constructed decision packet carries exactly one
must-have gap per `is_must_have` category whose per-scorer mean is below 3.0,
and its recommendation follows the fixed-order policy: `Hire` at score ≥ 4.0
with no gaps, `Lean hire` at ≥ 3.5 with no gaps, `No` whenever gaps exist,
`Lean no` below 2.5 without gaps, and withheld (`none`) in the 2.5–3.5 band
without gaps. -/
theorem create_decision_packet_spec (rubric : Rubric)
    (panel_reviews : List AgentReview) (disagreements : List Disagreement)
    (agent_working_memory : List (String × WorkingMemory)) (p : DecisionPacket)
    (h : create_decision_packet rubric panel_reviews disagreements
      agent_working_memory = .ok p) :
    p.overall_fit_score = overallFitScore rubric panel_reviews
    ∧ p.must_have_gaps =
        (rubric.categories.filter (fun c => c.is_must_have &&
            decide ((((scoresForCategory c.name panel_reviews).map (fun s => (s : ℚ))).sum /
              (scoresForCategory c.name panel_reviews).length) < 3))).map
          (fun c => mustHaveGapText c.name
            (calculate_weighted_average_score c.name panel_reviews))
    ∧ (4 ≤ p.overall_fit_score ∧ p.must_have_gaps = [] →
        p.recommendation = some .hire)
    ∧ (7/2 ≤ p.overall_fit_score ∧ p.overall_fit_score < 4 ∧ p.must_have_gaps = [] →
        p.recommendation = some .leanHire)
    ∧ (p.must_have_gaps ≠ [] → p.recommendation = some .no)
    ∧ (p.overall_fit_score < 5/2 ∧ p.must_have_gaps = [] →
        p.recommendation = some .leanNo)
    ∧ (5/2 ≤ p.overall_fit_score ∧ p.overall_fit_score < 7/2 ∧ p.must_have_gaps = [] →
        p.recommendation = none) := by
  rw [create_decision_packet] at h
  obtain ⟨-, hscore, -, hrec, -, -, hgaps, -⟩ :=
    mkDecisionPacket_ok_inv _ _ _ _ _ _ _ _ _ h
  have hcases := decideRecommendation_cases (overallFitScore rubric panel_reviews)
    (mustHaveGaps rubric panel_reviews)
  refine ⟨hscore, ?_, ?_, ?_, ?_, ?_, ?_⟩
  · rw [hgaps, mustHaveGaps_eq]
  · rintro ⟨h4, hnil⟩
    rw [hrec]
    exact hcases.1 ⟨by rwa [hscore] at h4, by rwa [hgaps] at hnil⟩
  · rintro ⟨h35, h4, hnil⟩
    rw [hrec]
    exact hcases.2.1 ⟨by rwa [hscore] at h35, by rwa [hscore] at h4,
      by rwa [hgaps] at hnil⟩
  · intro hne
    rw [hrec]
    exact hcases.2.2.1 (by rwa [hgaps] at hne)
  · rintro ⟨hlt, hnil⟩
    rw [hrec]
    exact hcases.2.2.2.1 ⟨by rwa [hscore] at hlt, by rwa [hgaps] at hnil⟩
  · rintro ⟨h25, h35, hnil⟩
    rw [hrec]
    exact hcases.2.2.2.2 ⟨by rwa [hscore] at h25, by rwa [hscore] at h35,
      by rwa [hgaps] at hnil⟩

/-- Witness for C1: a single must-have category scored 4 by the single
reviewer produces the packet with no gaps and recommendation `Hire`. -/
theorem create_decision_packet_spec_witness :
    create_decision_packet exRubricA [exReviewHR4] [] [] = .ok exPacketHire ∧
    exPacketHire.must_have_gaps = [] ∧
    exPacketHire.recommendation = some .hire := by
  have havg : calculate_weighted_average_score "A" [exReviewHR4] = 4 := by
    simp only [calculate_weighted_average_score, scoresForCategory, findCategoryScore,
      exReviewHR4, List.find?, List.foldl_cons, List.foldl_nil, String.reduceBEq,
      Option.map_some']
    norm_num
  have hov : overallFitScore exRubricA [exReviewHR4] = 4 := by
    rw [overallFitScore]
    simp only [exRubricA, List.foldl_cons, List.foldl_nil, havg]
    norm_num [round1, pyRound]
  have hgaps : mustHaveGaps exRubricA [exReviewHR4] = [] := by
    rw [mustHaveGaps]
    simp only [exRubricA, List.foldl_cons, List.foldl_nil, havg]
    norm_num
  have hrec : decideRecommendation 4 [] = some Recommendation.hire := by
    rw [decideRecommendation, if_pos ⟨by norm_num, rfl⟩]
  have hstr : deduplicate_strengths_risks (allStrengths [exReviewHR4]) =
      ["s1", "s2", "s3"] := by decide
  have hrsk : deduplicate_strengths_risks (allRisks [exReviewHR4]) =
      ["r1", "r2", "r3"] := by decide
  have hok : create_decision_packet exRubricA [exReviewHR4] [] [] = .ok exPacketHire := by
    rw [create_decision_packet]
    simp only [hov, hgaps, hrec, hstr, hrsk, List.length_nil]
    rw [mkDecisionPacket]
    rw [if_neg (by decide), if_neg (by norm_num), if_neg (by decide), if_neg (by decide),
      if_neg (by simp), if_neg (by simp), if_neg (by norm_num)]
    rfl
  have h := create_decision_packet_spec exRubricA [exReviewHR4] [] [] exPacketHire hok
  refine ⟨hok, ?_, h.2.2.1 ⟨?_, ?_⟩⟩
  · rfl
  · rw [h.1, hov]
  · rfl

/-! ## Claim C3 — disagreement detection -/

/-- Folding further reviews whose roles avoid `role` does not change the
lookup at `role`. -/
theorem dictGet?_collect_fold_not_mem (c : String) :
    ∀ (panel : List AgentReview) (m : List (String × Int)) (role : String),
      role ∉ panel.map (·.agent_role) →
      dictGet? (panel.foldl (fun m review =>
        match findCategoryScore review c with
        | some s => dictSet m review.agent_role s
        | none => m) m) role = dictGet? m role := by
  intro panel
  induction panel with
  | nil => intro m role _; rfl
  | cons r rest ih =>
      intro m role hrole
      rw [List.map_cons] at hrole
      have hne : r.agent_role ≠ role := fun hc => hrole (by rw [hc]; exact List.mem_cons_self _ _)
      have hrest : role ∉ rest.map (·.agent_role) :=
        fun hc => hrole (List.mem_cons_of_mem _ hc)
      rw [List.foldl_cons]
      cases hf : findCategoryScore r c with
      | some s =>
          dsimp only
          rw [ih (dictSet m r.agent_role s) role hrest,
            dictGet?_dictSet_ne m r.agent_role role s hne]
      | none =>
          dsimp only
          rw [ih m role hrest]

/-- Full characterisation of the per-category score collection of
`_detect_disagreements` under duplicate-free reviewer roles: the dict maps
`role` to the first matching score item of the unique review with that
role. -/
theorem dictGet?_collect_fold (c : String) :
    ∀ (panel : List AgentReview) (m : List (String × Int)) (role : String),
      (panel.map (·.agent_role)).Nodup →
      dictGet? (panel.foldl (fun m review =>
        match findCategoryScore review c with
        | some s => dictSet m review.agent_role s
        | none => m) m) role =
      (match panel.find? (fun r => r.agent_role == role) with
       | some r => match findCategoryScore r c with
          | some s => some s
          | none => dictGet? m role
       | none => dictGet? m role) := by
  intro panel
  induction panel with
  | nil => intro m role _; rfl
  | cons r rest ih =>
      intro m role hnd
      rw [List.map_cons, List.nodup_cons] at hnd
      rw [List.foldl_cons]
      by_cases hr : (r.agent_role == role)
      · have hrole : r.agent_role = role := by simpa using hr
        rw [List.find?_cons_of_pos (p := fun q => q.agent_role == role) rest hr]
        have hnot : role ∉ rest.map (·.agent_role) := by
          rw [← hrole]
          exact hnd.1
        cases hf : findCategoryScore r c with
        | some s =>
            dsimp only
            rw [dictGet?_collect_fold_not_mem c rest (dictSet m r.agent_role s) role hnot,
              hrole, dictGet?_dictSet_self, hf]
        | none =>
            dsimp only
            rw [dictGet?_collect_fold_not_mem c rest m role hnot, hf]
      · rw [List.find?_cons_of_neg (p := fun q => q.agent_role == role) rest hr]
        cases hf : findCategoryScore r c with
        | some s =>
            dsimp only
            rw [ih (dictSet m r.agent_role s) role hnd.2]
            have hne : r.agent_role ≠ role := by simpa using hr
            cases hfind : rest.find? (fun q => q.agent_role == role) with
            | some q =>
                dsimp only
                cases hfq : findCategoryScore q c with
                | some s' => rfl
                | none =>
                    dsimp only
                    rw [dictGet?_dictSet_ne m r.agent_role role s hne]
            | none =>
                dsimp only
                rw [dictGet?_dictSet_ne m r.agent_role role s hne]
        | none =>
            dsimp only
            rw [ih m role hnd.2]

/-- With duplicate-free roles, `find?` on a member's role returns that
member. -/
theorem find?_review_of_mem :
    ∀ (panel : List AgentReview) (review : AgentReview),
      (panel.map (·.agent_role)).Nodup → review ∈ panel →
      panel.find? (fun r => r.agent_role == review.agent_role) = some review := by
  intro panel
  induction panel with
  | nil => intro review _ hmem; cases hmem
  | cons r rest ih =>
      intro review hnd hmem
      rw [List.map_cons, List.nodup_cons] at hnd
      rcases List.mem_cons.mp hmem with rfl | hmem'
      · apply List.find?_cons_of_pos
        simp
      · have hne : ¬ (r.agent_role == review.agent_role) = true := by
          simp only [beq_iff_eq]
          intro hc
          exact hnd.1 (hc ▸ List.mem_map.mpr ⟨review, hmem', rfl⟩)
        rw [List.find?_cons_of_neg (p := fun q => q.agent_role == review.agent_role) rest hne]
        exact ih review hnd.2 hmem'

/-- Claim C3: under duplicate-free reviewer roles, `_detect_disagreements`
emits, in rubric category order, exactly one `Disagreement` per category
with at least 2 collected scores and `max - min ≥ 1`, carrying the full
per-role score dict and the `critical` resolution text at `delta ≥ 2`
(`moderate` otherwise); the collected dict maps a role to the unique
matching review's first score item for the category, so in particular every
scoring reviewer (including all reviewers tied at the max or min) is
represented with its own score. -/
theorem detect_disagreements_spec (panel_reviews : List AgentReview) (rubric : Rubric)
    (hnd : (panel_reviews.map (·.agent_role)).Nodup) :
    (detect_disagreements panel_reviews rubric =
      rubric.categories.flatMap (fun category =>
        if 2 ≤ (collectAgentScores category.name panel_reviews).length ∧
            1 ≤ listMax ((collectAgentScores category.name panel_reviews).map (·.2)) -
              listMin ((collectAgentScores category.name panel_reviews).map (·.2)) then
          [{ category_name := category.name
             agent_scores := collectAgentScores category.name panel_reviews
             reason := disagreementReason
               (((collectAgentScores category.name panel_reviews).filter
                 (fun p => p.2 == listMax
                   ((collectAgentScores category.name panel_reviews).map (·.2)))).map (·.1))
               (((collectAgentScores category.name panel_reviews).filter
                 (fun p => p.2 == listMin
                   ((collectAgentScores category.name panel_reviews).map (·.2)))).map (·.1))
               (listMax ((collectAgentScores category.name panel_reviews).map (·.2)))
               (listMin ((collectAgentScores category.name panel_reviews).map (·.2)))
               (listMax ((collectAgentScores category.name panel_reviews).map (·.2)) -
                 listMin ((collectAgentScores category.name panel_reviews).map (·.2)))
             resolution_approach :=
               if 2 ≤ listMax ((collectAgentScores category.name panel_reviews).map (·.2)) -
                   listMin ((collectAgentScores category.name panel_reviews).map (·.2)) then
                 criticalResolution
               else moderateResolution }]
        else []))
    ∧ (∀ (category_name role : String),
        dictGet? (collectAgentScores category_name panel_reviews) role =
          (panel_reviews.find? (fun r => r.agent_role == role)).bind
            (fun r => findCategoryScore r category_name))
    ∧ (∀ (category_name : String), ∀ review ∈ panel_reviews, ∀ s : Int,
        findCategoryScore review category_name = some s →
        dictGet? (collectAgentScores category_name panel_reviews)
          review.agent_role = some s) := by
  have hlook : ∀ (category_name role : String),
      dictGet? (collectAgentScores category_name panel_reviews) role =
        (panel_reviews.find? (fun r => r.agent_role == role)).bind
          (fun r => findCategoryScore r category_name) := by
    intro category_name role
    rw [collectAgentScores, dictGet?_collect_fold category_name panel_reviews [] role hnd]
    cases hfind : panel_reviews.find? (fun r => r.agent_role == role) with
    | none => rfl
    | some r =>
        dsimp only
        cases hf : findCategoryScore r category_name with
        | some s =>
            rw [Option.some_bind, hf]
        | none =>
            rw [Option.some_bind, hf]
            rfl
  refine ⟨?_, hlook, ?_⟩
  · rw [detect_disagreements]
    rw [foldl_append_flatMap _ _ ?hstep rubric.categories []]
    · rw [List.nil_append]
    case hstep =>
      intro acc category
      dsimp only
      by_cases hlen : (collectAgentScores category.name panel_reviews).length < 2
      · have hcond : ¬ (2 ≤ (collectAgentScores category.name panel_reviews).length ∧
            1 ≤ listMax ((collectAgentScores category.name panel_reviews).map (·.2)) -
              listMin ((collectAgentScores category.name panel_reviews).map (·.2))) := by
          rintro ⟨hc, -⟩
          omega
        rw [if_pos hlen, if_neg hcond, List.append_nil]
      · by_cases hdelta : 1 ≤ listMax ((collectAgentScores category.name panel_reviews).map (·.2)) -
            listMin ((collectAgentScores category.name panel_reviews).map (·.2))
        · have hcond : 2 ≤ (collectAgentScores category.name panel_reviews).length ∧
              1 ≤ listMax ((collectAgentScores category.name panel_reviews).map (·.2)) -
                listMin ((collectAgentScores category.name panel_reviews).map (·.2)) :=
            ⟨by omega, hdelta⟩
          rw [if_neg hlen, if_pos hdelta, if_pos hcond]
        · have hcond : ¬ (2 ≤ (collectAgentScores category.name panel_reviews).length ∧
              1 ≤ listMax ((collectAgentScores category.name panel_reviews).map (·.2)) -
                listMin ((collectAgentScores category.name panel_reviews).map (·.2))) := by
            rintro ⟨-, hc⟩
            exact hdelta hc
          rw [if_neg hlen, if_neg hdelta, if_neg hcond, List.append_nil]
  · intro category_name review hmem s hf
    rw [hlook category_name review.agent_role,
      find?_review_of_mem panel_reviews review hnd hmem]
    simpa using hf

/-- Witness for C3 (Scenario A): HR scoring `Domain Knowledge` 2 and Tech
scoring it 4 yield exactly one disagreement with both roles' scores and the
critical tier (delta 2). -/
theorem detect_disagreements_witness :
    detect_disagreements [exReviewDK_HR, exReviewDK_Tech] exRubricDK =
      [{ category_name := "Domain Knowledge"
         agent_scores := [("HR", 2), ("Tech", 4)]
         reason := disagreementReason ["Tech"] ["HR"] 4 2 2
         resolution_approach := criticalResolution }] := by
  have h := (detect_disagreements_spec [exReviewDK_HR, exReviewDK_Tech] exRubricDK
    (by decide)).1
  rw [h]
  decide

/-! ## Claim C7 — disagreement enrichment -/

/-- A `flatMap` over one-element lists is `map`. -/
theorem flatMap_singleton_eq_map {α β : Type} (g : α → β) :
    ∀ l : List α, (l.flatMap fun x => [g x]) = l.map g := by
  intro l
  induction l with
  | nil => rfl
  | cons x xs ih => simp [List.flatMap_cons, ih]

/-- Frame conditions of `_enrich_disagreements_with_memory`: the empty
memory map returns the input untouched; otherwise each disagreement keeps
its category, scores and resolution and its reason is extended (never
replaced) by the header and the per-role context blocks in `agent_scores`
order — a role without memory contributes nothing (the loop `continue`s
without any note), while a role whose memory has no case-insensitive
category match contributes the no-observations note. -/
theorem enrich_disagreements_frame (disagreements : List Disagreement)
    (agent_working_memory : List (String × WorkingMemory)) :
    (agent_working_memory = [] →
      enrich_disagreements_with_memory disagreements agent_working_memory = disagreements)
    ∧ (agent_working_memory ≠ [] →
      enrich_disagreements_with_memory disagreements agent_working_memory =
        disagreements.map (fun d =>
          { category_name := d.category_name
            agent_scores := d.agent_scores
            reason := d.reason ++ "\n\nWorking Memory Context:" ++
              String.join (d.agent_scores.map
                (agentContext agent_working_memory d.category_name))
            resolution_approach := d.resolution_approach }))
    ∧ (∀ e ∈ enrich_disagreements_with_memory disagreements agent_working_memory,
        ∃ d ∈ disagreements, e.category_name = d.category_name ∧
          e.agent_scores = d.agent_scores ∧
          e.resolution_approach = d.resolution_approach ∧
          ∃ t, e.reason = d.reason ++ t) := by
  have hmap : agent_working_memory ≠ [] →
      enrich_disagreements_with_memory disagreements agent_working_memory =
        disagreements.map (fun d =>
          { category_name := d.category_name
            agent_scores := d.agent_scores
            reason := d.reason ++ "\n\nWorking Memory Context:" ++
              String.join (d.agent_scores.map
                (agentContext agent_working_memory d.category_name))
            resolution_approach := d.resolution_approach }) := by
    intro hne
    rw [enrich_disagreements_with_memory,
      if_neg (by simpa [List.isEmpty_iff] using hne)]
    rw [foldl_append_flatMap _ (fun d =>
      [{ category_name := d.category_name
         agent_scores := d.agent_scores
         reason := d.reason ++ "\n\nWorking Memory Context:" ++
           String.join (d.agent_scores.map
             (agentContext agent_working_memory d.category_name))
         resolution_approach := d.resolution_approach }]) ?hstep disagreements []]
    · rw [List.nil_append, flatMap_singleton_eq_map]
    case hstep =>
      intro acc d
      rw [foldl_string_join (agentContext agent_working_memory d.category_name)
        d.agent_scores (d.reason ++ "\n\nWorking Memory Context:")]
  refine ⟨?_, hmap, ?_⟩
  · intro hnil
    rw [enrich_disagreements_with_memory, if_pos (by simp [hnil])]
  · intro e he
    by_cases hmem : agent_working_memory = []
    · rw [enrich_disagreements_with_memory, if_pos (by simp [hmem])] at he
      exact ⟨e, he, rfl, rfl, rfl, "", (String.append_empty e.reason).symm⟩
    · rw [hmap hmem] at he
      rcases List.mem_map.mp he with ⟨d, hd, rfl⟩
      exact ⟨d, hd, rfl, rfl, rfl,
        "\n\nWorking Memory Context:" ++
          String.join (d.agent_scores.map
            (agentContext agent_working_memory d.category_name)),
        String.append_assoc _ _ _⟩

/-- Counterexample to C7 as claimed: with a non-empty memory map that lacks
both scoring roles, the enriched reason gains only the header — the claimed
note for roles with missing memory is never added (the code `continue`s),
as the substring check confirms. -/
theorem enrich_missing_memory_counterexample :
    enrich_disagreements_with_memory [exDisagreementDK] exMemoryMapCompliance =
      [{ category_name := "Domain Knowledge"
         agent_scores := [("HR", 2), ("Tech", 4)]
         reason := "Score conflict detected.\n\nWorking Memory Context:"
         resolution_approach := criticalResolution }]
    ∧ pyInStr "No specific observations recorded"
        "Score conflict detected.\n\nWorking Memory Context:" = false := by
  constructor
  · decide
  · decide

/-- Witness for the amended C7: with the empty memory map the disagreements
come back untouched. -/
theorem enrich_disagreements_frame_witness :
    enrich_disagreements_with_memory [exDisagreementDK] [] = [exDisagreementDK] :=
  (enrich_disagreements_frame [exDisagreementDK] []).1 rfl

/-! ## Claim C8 — interview plan generation -/

/-- The capped append never changes the key list of
`questions_by_interviewer`. -/
theorem appendQuestionCapped_keys (qbi : List (String × List InterviewQuestion))
    (role : String) (q : InterviewQuestion) :
    (appendQuestionCapped qbi role q).map (·.1) = qbi.map (·.1) := by
  unfold appendQuestionCapped
  rw [List.map_map]
  apply List.map_congr_left
  intro p _
  by_cases hp : p.1 = role <;> simp [hp]

/-- Checking a key against an association list is checking membership of its
key list. -/
theorem any_key_eq_contains (l : List (String × List InterviewQuestion)) (x : String) :
    (l.any (fun e => e.1 == x)) = ((l.map (·.1)).contains x) := by
  induction l with
  | nil => rfl
  | cons p ps ih =>
      simp only [List.any_cons, List.contains_cons, List.map_cons, ih]
      rw [show (p.1 == x) = (x == p.1) from by simp [beq_iff_eq, eq_comm]]

/-- The must-have question source never changes the key list. -/
theorem planMustHaveStep_keys (rubric : Rubric) (panel_reviews : List AgentReview)
    (st : List (String × List InterviewQuestion) × List String) :
    (planMustHaveStep rubric panel_reviews st).1.map (·.1) = st.1.map (·.1) := by
  unfold planMustHaveStep
  refine foldl_invariant (fun s => s.1.map (·.1) = st.1.map (·.1)) _ ?_
    rubric.categories st rfl
  intro s category hs
  dsimp only
  by_cases hc : category.is_must_have ∧
      calculate_weighted_average_score category.name panel_reviews < 3
  · rw [if_pos hc]
    refine foldl_invariant (fun qbi => qbi.map (·.1) = st.1.map (·.1)) _ ?_
      panel_reviews s.1 hs
    intro qbi review hq
    dsimp only
    cases hf : review.category_scores.find?
        (fun sc => sc.category_name == category.name && sc.score < 3) with
    | some sc =>
        dsimp only
        rw [appendQuestionCapped_keys]
        exact hq
    | none => exact hq
  · rw [if_neg hc]
    exact hs

/-- The must-have question source appends exactly the names of the
must-have categories averaging below 3 to `priority_areas`. -/
theorem planMustHaveStep_priority (rubric : Rubric) (panel_reviews : List AgentReview)
    (st : List (String × List InterviewQuestion) × List String) :
    (planMustHaveStep rubric panel_reviews st).2 = st.2 ++
      (rubric.categories.filter (fun c => c.is_must_have &&
        decide (calculate_weighted_average_score c.name panel_reviews < 3))).map (·.name) := by
  unfold planMustHaveStep
  rw [foldl_snd_flatMap _ (fun c => if c.is_must_have &&
      decide (calculate_weighted_average_score c.name panel_reviews < 3) then [c.name]
    else []) ?hstep rubric.categories st]
  · rw [flatMap_if_singleton]
  case hstep =>
    intro s c
    dsimp only
    by_cases hm : c.is_must_have ∧ calculate_weighted_average_score c.name panel_reviews < 3
    · rw [if_pos hm]
      simp [hm.1, hm.2]
    · rw [if_neg hm]
      have hfalse : (c.is_must_have &&
          decide (calculate_weighted_average_score c.name panel_reviews < 3)) = false := by
        rcases not_and_or.mp hm with h | h
        · simp [h]
        · simp [h]
      rw [hfalse]
      simp

/-- Inversion of the disagreement question source: on success it preserves
the key list and appends exactly the disagreement category names to
`priority_areas`. -/
theorem planDisagreementStep_ok_inv :
    ∀ (disagreements : List Disagreement)
      (st st' : List (String × List InterviewQuestion) × List String),
      planDisagreementStep disagreements st = .ok st' →
      st'.1.map (·.1) = st.1.map (·.1) ∧
        st'.2 = st.2 ++ disagreements.map (·.category_name) := by
  intro disagreements
  induction disagreements with
  | nil =>
      intro st st' h
      cases h
      exact ⟨rfl, by simp⟩
  | cons d rest ih =>
      intro st st' h
      rw [planDisagreementStep] at h
      by_cases he : d.agent_scores.isEmpty
      · rw [if_pos he] at h
        cases h
      · rw [if_neg he] at h
        dsimp only at h
        cases hh : (d.agent_scores.filter
            (fun p => p.2 == listMin (d.agent_scores.map (·.2)))).head? with
        | none =>
            rw [hh] at h
            cases h
        | some p =>
            rw [hh] at h
            dsimp only at h
            by_cases hk : st.1.any (fun e => e.1 == p.1)
            · rw [if_pos hk] at h
              obtain ⟨hkeys, hprio⟩ := ih _ _ h
              constructor
              · rw [hkeys, appendQuestionCapped_keys]
              · rw [hprio, List.append_assoc, List.singleton_append, List.map_cons]
            · rw [if_neg hk] at h
              cases h

/-- The working-memory question source never changes the key list. -/
theorem planMemoryStep_keys (agent_working_memory : List (String × WorkingMemory))
    (qbi0 : List (String × List InterviewQuestion)) :
    (planMemoryStep agent_working_memory qbi0).map (·.1) = qbi0.map (·.1) := by
  unfold planMemoryStep
  refine foldl_invariant (fun q => q.map (·.1) = qbi0.map (·.1)) _ ?_
    agent_working_memory qbi0 rfl
  intro q p hq
  dsimp only
  by_cases hk : (q.any (fun e => e.1 == p.1))
  · rw [if_neg (by simp [hk])]
    have inv : ∀ {α : Type} (mk : α → InterviewQuestion) (l : List α)
        (q0 : List (String × List InterviewQuestion)),
        q0.map (·.1) = qbi0.map (·.1) →
        (l.foldl (fun qb a => appendQuestionCapped qb p.1 (mk a)) q0).map (·.1) =
          qbi0.map (·.1) := by
      intro α mk l q0 h0
      refine foldl_invariant (fun z => z.map (·.1) = qbi0.map (·.1)) _ ?_ l q0 h0
      intro z a hz
      rw [appendQuestionCapped_keys]
      exact hz
    exact inv _ _ _ (inv _ _ _ (inv _ _ _ hq))
  · rw [if_pos (by simp [hk])]
    exact hq

/-- Constructing from an `Except.ok` result of `mkInterviewPlan` recovers
the argument fields. -/
theorem mkInterviewPlan_ok_inv (qbi : List (String × List InterviewQuestion))
    (t : Option Int) (pr : List String) (p : InterviewPlan)
    (h : mkInterviewPlan qbi t pr = .ok p) :
    p.questions_by_interviewer = qbi ∧ p.time_estimate_minutes = t ∧
      p.priority_areas = pr := by
  unfold mkInterviewPlan at h
  split_ifs at h <;> cases h
  exact ⟨rfl, rfl, rfl⟩

/-- The key list of the initial `questions_by_interviewer` dict is the
first-occurrence deduplication of the reviewer roles. -/
theorem qbi0_keys :
    ∀ (panel_reviews : List AgentReview) (acc : List (String × List InterviewQuestion)),
      (panel_reviews.foldl (fun m review =>
        if m.any (fun e => e.1 == review.agent_role) then m
        else m ++ [(review.agent_role, [])]) acc).map (·.1) =
      (panel_reviews.map (·.agent_role)).foldl
        (fun a s => if a.contains s then a else a ++ [s]) (acc.map (·.1)) := by
  intro panel_reviews
  induction panel_reviews with
  | nil => intro acc; rfl
  | cons r rest ih =>
      intro acc
      rw [List.map_cons, List.foldl_cons, List.foldl_cons,
        any_key_eq_contains acc r.agent_role]
      by_cases hc : ((acc.map (·.1)).contains r.agent_role)
      · rw [if_pos hc, if_pos hc, ih]
      · rw [if_neg hc, if_neg hc, ih]
        congr 1
        rw [List.map_append]
        rfl

/-- Amended C8: a successfully generated `InterviewPlan` has
`time_estimate_minutes = (number of distinct reviewer roles) × 15` — every
reviewer role is counted, including roles that received zero questions —
and `priority_areas` is the duplicate-free set of the names of must-have
categories averaging below 3.0 together with the disagreement category
names. -/
theorem create_interview_plan_spec (rubric : Rubric)
    (panel_reviews : List AgentReview) (disagreements : List Disagreement)
    (agent_working_memory : List (String × WorkingMemory)) (p : InterviewPlan)
    (h : create_interview_plan rubric panel_reviews disagreements
      agent_working_memory = .ok p) :
    p.time_estimate_minutes =
      some ((pySetList (panel_reviews.map (·.agent_role))).length * 15)
    ∧ p.priority_areas = pySetList
        ((rubric.categories.filter (fun c => c.is_must_have &&
          decide (calculate_weighted_average_score c.name panel_reviews < 3))).map (·.name)
          ++ disagreements.map (·.category_name))
    ∧ p.priority_areas.Nodup
    ∧ (∀ a, a ∈ p.priority_areas ↔
        (a ∈ (rubric.categories.filter (fun c => c.is_must_have &&
            decide (calculate_weighted_average_score c.name panel_reviews < 3))).map (·.name)
          ∨ a ∈ disagreements.map (·.category_name))) := by
  rw [create_interview_plan] at h
  dsimp only at h
  cases hstep2 : planDisagreementStep disagreements
      (planMustHaveStep rubric panel_reviews
        (panel_reviews.foldl (fun m review =>
          if m.any (fun e => e.1 == review.agent_role) then m
          else m ++ [(review.agent_role, [])]) [], [])) with
  | error e =>
      rw [hstep2] at h
      cases h
  | ok st2 =>
      rw [hstep2] at h
      dsimp only at h
      obtain ⟨hq, ht, hpr⟩ := mkInterviewPlan_ok_inv _ _ _ _ h
      obtain ⟨hkeys2, hprio2⟩ := planDisagreementStep_ok_inv _ _ _ hstep2
      have hkeys1 := planMustHaveStep_keys rubric panel_reviews
        (panel_reviews.foldl (fun m review =>
          if m.any (fun e => e.1 == review.agent_role) then m
          else m ++ [(review.agent_role, [])]) [], [])
      have hprio1 := planMustHaveStep_priority rubric panel_reviews
        (panel_reviews.foldl (fun m review =>
          if m.any (fun e => e.1 == review.agent_role) then m
          else m ++ [(review.agent_role, [])]) [], [])
      have hq0 := qbi0_keys panel_reviews []
      have hkeys : (planMemoryStep agent_working_memory st2.1).map (·.1) =
          pySetList (panel_reviews.map (·.agent_role)) := by
        rw [planMemoryStep_keys, hkeys2, hkeys1, hq0]
        rfl
      have hlen : (planMemoryStep agent_working_memory st2.1).length =
          (pySetList (panel_reviews.map (·.agent_role))).length := by
        rw [← List.length_map (planMemoryStep agent_working_memory st2.1) (·.1), hkeys]
      have hprio : st2.2 =
          (rubric.categories.filter (fun c => c.is_must_have &&
            decide (calculate_weighted_average_score c.name panel_reviews < 3))).map (·.name)
            ++ disagreements.map (·.category_name) := by
        rw [hprio2, hprio1]
        rfl
      refine ⟨?_, ?_, ?_, ?_⟩
      · rw [ht, hlen]
        rfl
      · rw [hpr, hprio]
      · rw [hpr]
        exact pySetList_nodup _
      · intro a
        rw [hpr, hprio, mem_pySetList, List.mem_append]

/-- Evaluation of the interview plan on a concrete two-reviewer run with a
single moderate disagreement: HR (the lowest scorer) receives the only
question, Tech receives none, and both roles are counted in the time
estimate. -/
theorem interview_plan_example_eval :
    create_interview_plan exRubricA [exReviewHR4, exReviewTech5]
        (detect_disagreements [exReviewHR4, exReviewTech5] exRubricA) [] =
      .ok ⟨[("HR", [disagreementQuestion "A" "HR"]), ("Tech", [])], some 30, ["A"]⟩ := by
  have havg : calculate_weighted_average_score "A" [exReviewHR4, exReviewTech5] = 9/2 := by
    simp only [calculate_weighted_average_score, scoresForCategory, findCategoryScore,
      exReviewHR4, exReviewTech5, List.find?, List.foldl_cons, List.foldl_nil,
      String.reduceBEq, Option.map_some', List.nil_append]
    norm_num
  have hd : detect_disagreements [exReviewHR4, exReviewTech5] exRubricA =
      [{ category_name := "A", agent_scores := [("HR", 4), ("Tech", 5)],
         reason := disagreementReason ["Tech"] ["HR"] 5 4 1,
         resolution_approach := moderateResolution }] := by
    decide
  have hst1 : planMustHaveStep exRubricA [exReviewHR4, exReviewTech5]
      ([("HR", []), ("Tech", [])], []) = (([("HR", []), ("Tech", [])] :
        List (String × List InterviewQuestion)), ([] : List String)) := by
    rw [planMustHaveStep]
    simp only [exRubricA, List.foldl_cons, List.foldl_nil]
    rw [if_neg]
    rintro ⟨-, hc⟩
    rw [havg] at hc
    norm_num at hc
  rw [hd, create_interview_plan]
  have hq0 : ([exReviewHR4, exReviewTech5].foldl (fun m review =>
      if m.any (fun e => e.1 == review.agent_role) then m
      else m ++ [(review.agent_role, [])]) []) =
      ([("HR", []), ("Tech", [])] : List (String × List InterviewQuestion)) := by
    decide
  dsimp only
  rw [hq0, hst1]
  rfl

/-- Counterexample to C8 as claimed: two reviewers, one disagreement whose
question goes to HR only, leave Tech with zero questions, yet the time
estimate is `2 × 15 = 30`, not `1 × 15` as the claim's
roles-with-at-least-one-question reading requires. -/
theorem interview_plan_time_counterexample :
    ∃ p, create_interview_plan exRubricA [exReviewHR4, exReviewTech5]
        (detect_disagreements [exReviewHR4, exReviewTech5] exRubricA) [] = .ok p
      ∧ p.time_estimate_minutes = some 30
      ∧ (p.questions_by_interviewer.filter (fun e => !e.2.isEmpty)).length = 1
      ∧ p.time_estimate_minutes ≠ some (15 * 1) :=
  ⟨⟨[("HR", [disagreementQuestion "A" "HR"]), ("Tech", [])], some 30, ["A"]⟩,
    interview_plan_example_eval, rfl, by decide, by decide⟩

/-- Witness for the amended C8 at the same concrete input. -/
theorem create_interview_plan_spec_witness :
    ∃ p, create_interview_plan exRubricA [exReviewHR4, exReviewTech5]
        (detect_disagreements [exReviewHR4, exReviewTech5] exRubricA) [] = .ok p
      ∧ p.time_estimate_minutes =
          some ((pySetList ([exReviewHR4, exReviewTech5].map (·.agent_role))).length * 15)
      ∧ p.priority_areas.Nodup := by
  have h := create_interview_plan_spec exRubricA [exReviewHR4, exReviewTech5]
    (detect_disagreements [exReviewHR4, exReviewTech5] exRubricA) []
    ⟨[("HR", [disagreementQuestion "A" "HR"]), ("Tech", [])], some 30, ["A"]⟩
    interview_plan_example_eval
  exact ⟨_, interview_plan_example_eval, h.1, h.2.2.1⟩

end HiringOrch
